import Mathlib

/-!
# CAN driver of CANopenNode-pio (src/CO_driver/src/CO_driver.c)

A shallow embedding of the driver: the module object, its receive and transmit
slot arrays, and the operations `CO_CANmodule_init`, `CO_CANrxBufferInit`,
`CO_CANtxBufferInit`, `CO_CANsend`, `CO_CANclearPendingSyncPDOs`,
`CO_CANmodule_process` and `CANreceive`.

Conventions of the embedding

* Machine integers are `Nat`; where C arithmetic wraps or truncates
  (`uint16_t` counters and status words, the `uint32_t` error sample) the
  reduction modulo `2^16` or `2^32` is written out.
* A pointer that may be `NULL` is an `Option`. The module object holds its two
  arrays by value: `rxArray` and `txArray` are the memory the C pointers point
  to, `rxSize` and `txSize` are the separate size fields of the C struct.
  Reading or writing an array element that does not exist is outside the model;
  theorems that depend on it assume the size field is within the array.
* A pointer to a transmit slot is the index of the slot in `txArray`.
* Calls into the TWAI transport are inputs and outputs of the operations: the
  value returned by `twai_transmit` or `twai_receive` is an argument, the frame
  handed to `twai_transmit` and the call of `twai_clear_transmit_queue` are
  results. Logging is not modelled.
* Consumer callbacks are opaque addresses; invoking one is recorded as a
  `CallbackCall` in the order of invocation.
-/

namespace CANopen

/-! ## Data model -/

/-- Address of a consumer object or of a callback function. -/
abbrev Ptr := Nat

/-- Result code of the ESP-IDF transport primitives (`esp_err_t` is an `int`). -/
abbrev esp_err_t := Int

/-- Success code of the ESP-IDF transport primitives. -/
def ESP_OK : esp_err_t := 0

/-- Return codes of the driver functions (the three that the driver uses). -/
inductive CO_ReturnError_t
  | CO_ERROR_NO
  | CO_ERROR_ILLEGAL_ARGUMENT
  | CO_ERROR_TX_OVERFLOW
  deriving DecidableEq, Repr

/-- Frame of the TWAI transport (`twai_message_t` of ESP-IDF): the five flag
bits, the identifier, the data length code and the eight data bytes. -/
structure twai_message_t where
  extd : Bool
  rtr : Bool
  ss : Bool
  self : Bool
  dlc_non_comp : Bool
  identifier : Nat
  data_length_code : Nat
  data : List Nat
  deriving DecidableEq, Repr

/-- Received message object (`CO_CANrx_t`, CO_driver_target.h). -/
structure CO_CANrx_t where
  ident : Nat
  mask : Nat
  object : Option Ptr
  CANrx_callback : Option Ptr
  deriving DecidableEq, Repr

/-- Transmit message object (`CO_CANtx_t`, CO_driver_target.h). -/
structure CO_CANtx_t where
  ident : Nat
  DLC : Nat
  data : List Nat
  bufferFull : Bool
  syncFlag : Bool
  deriving DecidableEq, Repr

/-- CAN module object (`CO_CANmodule_t`, CO_driver_target.h). -/
structure CO_CANmodule_t where
  CANptr : Option Ptr
  rxArray : List CO_CANrx_t
  rxSize : Nat
  txArray : List CO_CANtx_t
  txSize : Nat
  CANerrorStatus : Nat
  CANnormal : Bool
  useCANrxFilters : Bool
  bufferInhibitFlag : Bool
  firstCANtxMessage : Bool
  CANtxCount : Nat
  errOld : Nat
  deriving DecidableEq, Repr

/-- Modelled from the spec: the header 301/CO_driver.h, which declares the
status flags `CO_CAN_ERRTX_WARNING` ... `CO_CAN_ERRRX_OVERFLOW`, is not among
the sources. The spec describes them as independent bit flags of the 16-bit
error status. Each flag is one bit; its position is a parameter. -/
structure StatusBits where
  txWarning : Nat
  txPassive : Nat
  txBusOff : Nat
  txOverflow : Nat
  txPdoLate : Nat
  rxWarning : Nat
  rxPassive : Nat
  rxOverflow : Nat
  deriving DecidableEq, Repr

namespace StatusBits

/-- The eight bit positions of a flag assignment. -/
def positions (E : StatusBits) : List Nat :=
  [E.txWarning, E.txPassive, E.txBusOff, E.txOverflow, E.txPdoLate,
   E.rxWarning, E.rxPassive, E.rxOverflow]

/-- The flags are independent bits of a 16-bit word: pairwise different
positions, all below 16. -/
def independent (E : StatusBits) : Prop :=
  E.positions.Nodup ∧ ∀ k ∈ E.positions, k < 16

instance (E : StatusBits) : Decidable E.independent := by
  unfold independent; infer_instance

end StatusBits

/-- Flag assignment of the CANopenNode stack (`CO_CAN_ERR_status_t`): 0x0001,
0x0002, 0x0004, 0x0008, 0x0080, 0x0100, 0x0200 and 0x0800. -/
def canopenNodeBits : StatusBits :=
  { txWarning := 0, txPassive := 1, txBusOff := 2, txOverflow := 3, txPdoLate := 7,
    rxWarning := 8, rxPassive := 9, rxOverflow := 11 }

/-- Mask of the tx-warning flag. -/
def CO_CAN_ERRTX_WARNING (E : StatusBits) : Nat := 2 ^ E.txWarning
/-- Mask of the tx-passive flag. -/
def CO_CAN_ERRTX_PASSIVE (E : StatusBits) : Nat := 2 ^ E.txPassive
/-- Mask of the bus-off flag. -/
def CO_CAN_ERRTX_BUS_OFF (E : StatusBits) : Nat := 2 ^ E.txBusOff
/-- Mask of the tx-overflow flag. -/
def CO_CAN_ERRTX_OVERFLOW (E : StatusBits) : Nat := 2 ^ E.txOverflow
/-- Mask of the tx-pdo-late flag. -/
def CO_CAN_ERRTX_PDO_LATE (E : StatusBits) : Nat := 2 ^ E.txPdoLate
/-- Mask of the rx-warning flag. -/
def CO_CAN_ERRRX_WARNING (E : StatusBits) : Nat := 2 ^ E.rxWarning
/-- Mask of the rx-passive flag. -/
def CO_CAN_ERRRX_PASSIVE (E : StatusBits) : Nat := 2 ^ E.rxPassive
/-- Mask of the rx-overflow flag. -/
def CO_CAN_ERRRX_OVERFLOW (E : StatusBits) : Nat := 2 ^ E.rxOverflow

/-- One invocation of a consumer callback: `callback(object, &message)`. -/
structure CallbackCall where
  callback : Ptr
  object : Option Ptr
  message : twai_message_t
  deriving DecidableEq, Repr

/-- Apply `f` to the element at position `i` of a list (a write through
`&array[i]` that changes some fields of the element). -/
def updateAt {α : Type} (f : α → α) : Nat → List α → List α
  | _, [] => []
  | 0, a :: as => f a :: as
  | i + 1, a :: as => a :: updateAt f i as

/-! ## CO_CANmodule_init -/

/-- First loop of `CO_CANmodule_init`: every receive slot `i < rxSize` gets
`ident = 0`, `mask = 0xFFFF`, no object and no callback. -/
def initRxArray (rxArray : List CO_CANrx_t) (rxSize : Nat) : List CO_CANrx_t :=
  (List.range rxSize).foldl
    (fun arr i => updateAt
      (fun _ => { ident := 0, mask := 0xFFFF, object := none, CANrx_callback := none }) i arr)
    rxArray

/-- Second loop of `CO_CANmodule_init`: `txArray[i].bufferFull = false` for
every `i < txSize`. -/
def initTxArray (txArray : List CO_CANtx_t) (txSize : Nat) : List CO_CANtx_t :=
  (List.range txSize).foldl
    (fun arr i => updateAt (fun b => { b with bufferFull := false }) i arr)
    txArray

/-- The function `CO_CANmodule_init`. The arguments `CANmodule`, `rxArray` and
`txArray` are the memory behind the three pointers (`none` for `NULL`); the
result gives the return code and the same three pieces of memory after the
call. `twai_driver_install` is the code returned by the transport when the
driver is installed: `ESP_ERROR_CHECK` aborts the program (`none`) when it is
not `ESP_OK`. -/
def CO_CANmodule_init (CANmodule : Option CO_CANmodule_t) (CANptr : Option Ptr)
    (rxArray : Option (List CO_CANrx_t)) (rxSize : Nat)
    (txArray : Option (List CO_CANtx_t)) (txSize : Nat) (CANbitRate : Nat)
    (twai_driver_install : esp_err_t) :
    Option (CO_ReturnError_t × Option CO_CANmodule_t ×
      Option (List CO_CANrx_t) × Option (List CO_CANtx_t)) :=
  match CANmodule, rxArray, txArray with
  | some _, some rx, some tx =>
    let rx1 := initRxArray rx rxSize
    let tx1 := initTxArray tx txSize
    let m : CO_CANmodule_t :=
      { CANptr := CANptr
        rxArray := rx1
        rxSize := rxSize
        txArray := tx1
        txSize := txSize
        CANerrorStatus := 0
        CANnormal := false
        useCANrxFilters := false
        bufferInhibitFlag := false
        firstCANtxMessage := true
        CANtxCount := 0
        errOld := 0 }
    if twai_driver_install = ESP_OK then
      some (CO_ReturnError_t.CO_ERROR_NO, some m, some rx1, some tx1)
    else none
  | _, _, _ => some (CO_ReturnError_t.CO_ERROR_ILLEGAL_ARGUMENT, CANmodule, rxArray, txArray)

/-! ## CO_CANrxBufferInit and CO_CANtxBufferInit -/

/-- The function `CO_CANrxBufferInit`: return code and module after the call. -/
def CO_CANrxBufferInit (CANmodule : Option CO_CANmodule_t) (index ident mask : Nat)
    (rtr : Bool) (object : Option Ptr) (CANrx_callback : Option Ptr) :
    CO_ReturnError_t × Option CO_CANmodule_t :=
  match CANmodule, object, CANrx_callback with
  | some m, some obj, some cb =>
    if index < m.rxSize then
      let ident1 := ident &&& 0x07FF
      let ident2 := if rtr then ident1 ||| 0x0800 else ident1
      let buffer : CO_CANrx_t :=
        { object := some obj
          CANrx_callback := some cb
          ident := ident2
          mask := (mask &&& 0x07FF) ||| 0x0800 }
      (CO_ReturnError_t.CO_ERROR_NO,
        some { m with rxArray := updateAt (fun _ => buffer) index m.rxArray })
    else (CO_ReturnError_t.CO_ERROR_ILLEGAL_ARGUMENT, CANmodule)
  | _, _, _ => (CO_ReturnError_t.CO_ERROR_ILLEGAL_ARGUMENT, CANmodule)

/-- The function `CO_CANtxBufferInit`: the returned slot pointer (index into
`txArray`, `none` for `NULL`) and the module after the call. -/
def CO_CANtxBufferInit (CANmodule : Option CO_CANmodule_t) (index ident : Nat)
    (rtr : Bool) (noOfBytes : Nat) (syncFlag : Bool) :
    Option Nat × Option CO_CANmodule_t :=
  match CANmodule with
  | some m =>
    if index < m.txSize then
      (some index,
        some { m with
          txArray := updateAt
            (fun b => { b with
              ident := ident &&& 0x07FF
              DLC := noOfBytes &&& 0xF
              bufferFull := false
              syncFlag := syncFlag }) index m.txArray })
    else (none, CANmodule)
  | none => (none, none)

/-! ## CO_CANsend -/

/-- Frame that `CO_CANsend` builds from a slot: identifier, DLC, no flags, and
the copy loop `for i < 8: msg.data[i] = buffer->data[i]`. -/
def txMessage (buffer : CO_CANtx_t) : twai_message_t :=
  { extd := false, rtr := false, ss := false, self := false, dlc_non_comp := false
    identifier := buffer.ident
    data_length_code := buffer.DLC
    data := (List.range 8).map (fun i => buffer.data.getD i 0) }

/-- The function `CO_CANsend`. `buffer` is the slot pointer, `ret` the code
returned by `twai_transmit`. The result is the return code, the module after
the call and the frame handed to the transport; it is `none` when the slot
pointer is `NULL` or points outside `txArray` (the C code dereferences it
unchecked). -/
def CO_CANsend (E : StatusBits) (CANmodule : CO_CANmodule_t) (buffer : Option Nat)
    (ret : esp_err_t) : Option (CO_ReturnError_t × CO_CANmodule_t × twai_message_t) :=
  match buffer with
  | none => none
  | some p =>
    match CANmodule.txArray[p]? with
    | none => none
    | some b =>
      let status1 :=
        if b.bufferFull && !CANmodule.firstCANtxMessage then
          (CANmodule.CANerrorStatus ||| CO_CAN_ERRTX_OVERFLOW E) % 65536
        else CANmodule.CANerrorStatus
      let err :=
        if b.bufferFull then CO_ReturnError_t.CO_ERROR_TX_OVERFLOW
        else CO_ReturnError_t.CO_ERROR_NO
      let msg := txMessage b
      if ret = ESP_OK ∧ CANmodule.CANtxCount = 0 then
        some (err,
          { CANmodule with CANerrorStatus := status1, bufferInhibitFlag := b.syncFlag }, msg)
      else
        some (err,
          { CANmodule with
            CANerrorStatus := status1
            txArray := updateAt (fun b => { b with bufferFull := true }) p CANmodule.txArray
            CANtxCount := (CANmodule.CANtxCount + 1) % 65536 }, msg)

/-! ## CO_CANclearPendingSyncPDOs -/

/-- Loop of `CO_CANclearPendingSyncPDOs`: `i` counts down from `txSize`, the
list is the array from `buffer` on, `cnt` is `CANtxCount` and `del` is
`tpdoDeleted`. -/
def clearSyncLoop : Nat → List CO_CANtx_t → Nat → Nat → List CO_CANtx_t × Nat × Nat
  | 0, bufs, cnt, del => (bufs, cnt, del)
  | _ + 1, [], cnt, del => ([], cnt, del)
  | i + 1, b :: rest, cnt, del =>
    if b.bufferFull && b.syncFlag then
      let r := clearSyncLoop i rest ((cnt + 65535) % 65536) 2
      ({ b with bufferFull := false } :: r.1, r.2.1, r.2.2)
    else
      let r := clearSyncLoop i rest cnt del
      (b :: r.1, r.2.1, r.2.2)

/-- The function `CO_CANclearPendingSyncPDOs`: the module after the call and
whether `twai_clear_transmit_queue` was called. -/
def CO_CANclearPendingSyncPDOs (E : StatusBits) (CANmodule : CO_CANmodule_t) :
    CO_CANmodule_t × Bool :=
  let del0 : Nat := if CANmodule.bufferInhibitFlag then 1 else 0
  let r :=
    if CANmodule.CANtxCount ≠ 0 then
      clearSyncLoop CANmodule.txSize CANmodule.txArray CANmodule.CANtxCount del0
    else (CANmodule.txArray, CANmodule.CANtxCount, del0)
  let status :=
    if r.2.2 ≠ 0 then (CANmodule.CANerrorStatus ||| CO_CAN_ERRTX_PDO_LATE E) % 65536
    else CANmodule.CANerrorStatus
  ({ CANmodule with
      bufferInhibitFlag := false
      txArray := r.1
      CANtxCount := r.2.1
      CANerrorStatus := status },
    CANmodule.bufferInhibitFlag)

/-! ## CO_CANmodule_process -/

/-- Combined error sample `err` of `CO_CANmodule_process`, a `uint32_t`. -/
def errSample (rxErrors txErrors overflow : Nat) : Nat :=
  ((txErrors <<< 16) % 4294967296) ||| ((rxErrors <<< 8) % 4294967296) ||| overflow

/-- Status word that `CO_CANmodule_process` computes when the sample changed. -/
def processStatus (E : StatusBits) (rxErrors txErrors overflow : Nat) (status0 : Nat) : Nat :=
  let status1 :=
    if txErrors ≥ 256 then (status0 ||| CO_CAN_ERRTX_BUS_OFF E) % 65536
    else
      let s1 := (status0 &&& (0xFFFF ^^^ (CO_CAN_ERRTX_BUS_OFF E |||
                  CO_CAN_ERRRX_WARNING E ||| CO_CAN_ERRRX_PASSIVE E |||
                  CO_CAN_ERRTX_WARNING E ||| CO_CAN_ERRTX_PASSIVE E))) % 65536
      let s2 :=
        if rxErrors ≥ 128 then (s1 ||| (CO_CAN_ERRRX_WARNING E ||| CO_CAN_ERRRX_PASSIVE E)) % 65536
        else if rxErrors ≥ 96 then (s1 ||| CO_CAN_ERRRX_WARNING E) % 65536
        else s1
      let s3 :=
        if txErrors ≥ 128 then (s2 ||| (CO_CAN_ERRTX_WARNING E ||| CO_CAN_ERRTX_PASSIVE E)) % 65536
        else if rxErrors ≥ 96 then (s2 ||| CO_CAN_ERRTX_WARNING E) % 65536
        else s2
      if s3 &&& CO_CAN_ERRTX_PASSIVE E = 0 then
        (s3 &&& (0xFFFF ^^^ CO_CAN_ERRTX_OVERFLOW E)) % 65536
      else s3
  if overflow ≠ 0 then (status1 ||| CO_CAN_ERRRX_OVERFLOW E) % 65536 else status1

/-- The function `CO_CANmodule_process`. The file-static counters `rxErrors`,
`txErrors` and `overflow` (all `uint16_t`) are arguments. -/
def CO_CANmodule_process (E : StatusBits) (rxErrors txErrors overflow : Nat)
    (CANmodule : CO_CANmodule_t) : CO_CANmodule_t :=
  let err := errSample rxErrors txErrors overflow
  if CANmodule.errOld ≠ err then
    { CANmodule with
      errOld := err
      CANerrorStatus := processStatus E rxErrors txErrors overflow CANmodule.CANerrorStatus }
  else CANmodule

/-! ## CANreceive -/

/-- Search loop of `CANreceive`: `index` counts down from `rxSize`, the list is
the array from `buffer` on and `pos` is the offset of `buffer` in `rxArray`.
The result is the slot at which the loop breaks with `msgMatched = true`, or
`none` when the loop ends with `msgMatched = false`. -/
def rxScan (rcvMsgIdent : Nat) : Nat → List CO_CANrx_t → Nat → Option (Nat × CO_CANrx_t)
  | 0, _, _ => none
  | _ + 1, [], _ => none
  | index + 1, buffer :: rest, pos =>
    if (rcvMsgIdent ^^^ buffer.ident) &&& buffer.mask = 0 then some (pos, buffer)
    else rxScan rcvMsgIdent index rest (pos + 1)

/-- The function `CANreceive`. `ret` and `rcvMsg` are what `twai_receive`
returned and stored; the result is the module after the call and the callback
invocations made. -/
def CANreceive (CANmodule : CO_CANmodule_t) (ret : esp_err_t) (rcvMsg : twai_message_t) :
    CO_CANmodule_t × List CallbackCall :=
  let rcvMsgIdent := rcvMsg.identifier
  let found :=
    if CANmodule.useCANrxFilters then none
    else rxScan rcvMsgIdent CANmodule.rxSize CANmodule.rxArray 0
  match found with
  | some (_, buffer) =>
    match buffer.CANrx_callback with
    | some cb => (CANmodule, [{ callback := cb, object := buffer.object, message := rcvMsg }])
    | none => (CANmodule, [])
  | none => (CANmodule, [])

/-! ## Sequences of operations -/

/-- One call of a driver operation on an initialised module, with the values
the environment supplies to it. -/
inductive Op
  | rxBufferInit (index ident mask : Nat) (rtr : Bool) (object : Option Ptr)
      (CANrx_callback : Option Ptr)
  | txBufferInit (index ident : Nat) (rtr : Bool) (noOfBytes : Nat) (syncFlag : Bool)
  | send (buffer : Option Nat) (ret : esp_err_t)
  | clearPendingSyncPDOs
  | process (rxErrors txErrors overflow : Nat)
  | receive (ret : esp_err_t) (rcvMsg : twai_message_t)
  deriving DecidableEq, Repr

/-- Module after one operation; `none` when the operation dereferences an
invalid slot pointer. -/
def step (E : StatusBits) (m : CO_CANmodule_t) : Op → Option CO_CANmodule_t
  | Op.rxBufferInit index ident mask rtr object cb =>
    (CO_CANrxBufferInit (some m) index ident mask rtr object cb).2
  | Op.txBufferInit index ident rtr noOfBytes syncFlag =>
    (CO_CANtxBufferInit (some m) index ident rtr noOfBytes syncFlag).2
  | Op.send buffer ret => (CO_CANsend E m buffer ret).map (fun r => r.2.1)
  | Op.clearPendingSyncPDOs => some (CO_CANclearPendingSyncPDOs E m).1
  | Op.process rxErrors txErrors overflow =>
    some (CO_CANmodule_process E rxErrors txErrors overflow m)
  | Op.receive ret rcvMsg => some (CANreceive m ret rcvMsg).1

/-- Module after a sequence of operations. -/
def run (E : StatusBits) (m : CO_CANmodule_t) : List Op → Option CO_CANmodule_t
  | [] => some m
  | op :: ops =>
    match step E m op with
    | some m1 => run E m1 ops
    | none => none

/-- Number of transmit slots (among the first `txSize`) with `bufferFull`. -/
def fullCount (m : CO_CANmodule_t) : Nat :=
  (m.txArray.take m.txSize).countP (fun b => b.bufferFull)

/-- Operations of the transmit side: slot set-up, send, purge and refresh. -/
def Op.isTxSide : Op → Bool
  | Op.txBufferInit .. => true
  | Op.send .. => true
  | Op.clearPendingSyncPDOs => true
  | Op.process .. => true
  | _ => false

/-- Whether the slot at `index` exists and is full. -/
def slotFull (m : CO_CANmodule_t) (index : Nat) : Bool :=
  match m.txArray[index]? with
  | some b => b.bufferFull
  | none => false

/-- Guard on one operation: a send targets a slot `< txSize` that is empty, and
a slot that is set up again is not full. -/
def opOnEmptySlot (m : CO_CANmodule_t) : Op → Bool
  | Op.send (some p) _ => decide (p < m.txSize) && !slotFull m p
  | Op.send none _ => false
  | Op.txBufferInit index _ _ _ _ => !(decide (index < m.txSize) && slotFull m index)
  | _ => true

/-- Every operation of the sequence satisfies `opOnEmptySlot` in the state in
which it is called. -/
def opsOnEmptySlots (E : StatusBits) (m : CO_CANmodule_t) : List Op → Bool
  | [] => true
  | op :: ops =>
    opOnEmptySlot m op &&
      (match step E m op with
       | some m1 => opsOnEmptySlots E m1 ops
       | none => true)

/-! ## Concrete inputs used by the examples -/

/-- Module object before initialisation (arbitrary contents). -/
def rawModule : CO_CANmodule_t :=
  { CANptr := none, rxArray := [], rxSize := 0, txArray := [], txSize := 0,
    CANerrorStatus := 0, CANnormal := false, useCANrxFilters := false,
    bufferInhibitFlag := false, firstCANtxMessage := false, CANtxCount := 0, errOld := 0 }

/-- Data frame or remote-request frame with a standard identifier and no data. -/
def stdFrame (identifier : Nat) (rtr : Bool) : twai_message_t :=
  { extd := false, rtr := rtr, ss := false, self := false, dlc_non_comp := false
    identifier := identifier, data_length_code := 0, data := [0, 0, 0, 0, 0, 0, 0, 0] }

/-- Receive slot as the caller allocates it (zeroed). -/
def rawRx : CO_CANrx_t := { ident := 0, mask := 0, object := none, CANrx_callback := none }

/-- Transmit slot as the caller allocates it (zeroed). -/
def rawTx : CO_CANtx_t :=
  { ident := 0, DLC := 0, data := [0, 0, 0, 0, 0, 0, 0, 0], bufferFull := false, syncFlag := false }

/-- Module with one slot for identifier 0x180 and one for identifier 0x200. -/
def disjointModule : CO_CANmodule_t :=
  { rawModule with
    rxArray := [{ ident := 0x180, mask := 0xFFF, object := some 10, CANrx_callback := some 100 },
                { ident := 0x200, mask := 0xFFF, object := some 20, CANrx_callback := some 200 }]
    rxSize := 2 }

/-- Receive slot as `CO_CANmodule_init` leaves it. -/
def resetRx : CO_CANrx_t :=
  { ident := 0, mask := 0xFFFF, object := none, CANrx_callback := none }

/-- Module of the scenario `rxSize = 4, txSize = 2` right after
`CO_CANmodule_init`. -/
def scenarioInit : CO_CANmodule_t :=
  { CANptr := none
    rxArray := [resetRx, resetRx, resetRx, resetRx], rxSize := 4
    txArray := [rawTx, rawTx], txSize := 2
    CANerrorStatus := 0, CANnormal := false, useCANrxFilters := false
    bufferInhibitFlag := false, firstCANtxMessage := true, CANtxCount := 0, errOld := 0 }

/-- The scenario module with a filter registered at `index` for identifier
`ident`, mask 0x7FF, consumer 5 and callback 6. -/
def scenarioReg (index ident : Nat) (rtr : Bool) : CO_CANmodule_t :=
  { scenarioInit with
    rxArray := updateAt
      (fun _ => { ident := if rtr then ident ||| 0x800 else ident, mask := 0xFFF,
                  object := some 5, CANrx_callback := some 6 }) index scenarioInit.rxArray }

/-- The scenario module after registering, at index 0, identifier 0x180 with
mask 0x7FF for consumer 10 and callback 100. -/
def overlapFirst : CO_CANmodule_t :=
  { scenarioInit with
    rxArray := [{ ident := 0x180, mask := 0xFFF, object := some 10, CANrx_callback := some 100 },
                resetRx, resetRx, resetRx] }

/-- The module `overlapFirst` after registering, at index 1, identifier 0x180
with mask 0x7F0 for consumer 20 and callback 200: slots 0 and 1 both accept
identifier 0x180. -/
def overlapModule : CO_CANmodule_t :=
  { scenarioInit with
    rxArray := [{ ident := 0x180, mask := 0xFFF, object := some 10, CANrx_callback := some 100 },
                { ident := 0x180, mask := 0xFF0, object := some 20, CANrx_callback := some 200 },
                resetRx, resetRx] }

/-- Transmit-side sequence that sends twice on the same slot while the
transport is busy. -/
def resendOps : List Op :=
  [Op.txBufferInit 0 0x200 false 8 false, Op.send (some 0) (-1), Op.send (some 0) (-1)]

/-- Transmit-side sequence that sets a slot up again while it is full. -/
def reinitOps : List Op :=
  [Op.txBufferInit 0 0x200 false 8 false, Op.send (some 0) (-1),
   Op.txBufferInit 0 0x200 false 8 false]

/-- Sequence in which every send and every slot set-up meets an empty slot. -/
def orderlyOps : List Op :=
  [Op.txBufferInit 0 0x200 false 8 true, Op.txBufferInit 1 0x201 false 8 false,
   Op.send (some 0) (-1), Op.send (some 1) 0, Op.process 0 0 0,
   Op.clearPendingSyncPDOs, Op.send (some 0) 0]

/-- Module reached from `scenarioInit` by `orderlyOps`. -/
def orderlyFinal : CO_CANmodule_t :=
  (run canopenNodeBits scenarioInit orderlyOps).getD rawModule

/-- Module in which slot 0 is full and the first frame has been sent. -/
def fullSlotModule : CO_CANmodule_t :=
  { scenarioInit with
    txArray := [{ rawTx with bufferFull := true }, rawTx]
    CANtxCount := 1
    firstCANtxMessage := false }

/-- Number of transmit slots (among the first `txSize`) that are full and
belong to the synchronous class. -/
def syncFullCount (m : CO_CANmodule_t) : Nat :=
  (m.txArray.take m.txSize).countP (fun b => b.bufferFull && b.syncFlag)

/-- Module with three transmit slots, all full: slots 0 and 2 synchronous,
slot 1 not. -/
def purgeModule : CO_CANmodule_t :=
  { scenarioInit with
    txArray := [{ rawTx with ident := 0x181, bufferFull := true, syncFlag := true },
                { rawTx with ident := 0x281, bufferFull := true, syncFlag := false },
                { rawTx with ident := 0x381, bufferFull := true, syncFlag := true }]
    txSize := 3
    CANtxCount := 3 }

/-- Module reached from `scenarioInit` by `resendOps`: slot 0 is full. -/
def resendFinal : CO_CANmodule_t :=
  (run canopenNodeBits scenarioInit resendOps).getD rawModule

/-- Operations that leave the transmit slots set up: every operation but
`CO_CANtxBufferInit`. -/
def Op.keepsSlotSetup : Op → Bool
  | Op.txBufferInit .. => false
  | _ => true

/-- File-static receive error counter of CO_driver.c, initialised to 0 and
assigned nowhere. -/
def rxErrors : Nat := 0

/-- File-static transmit error counter of CO_driver.c, initialised to 0 and
assigned nowhere. -/
def txErrors : Nat := 0

/-- File-static receive overflow counter of CO_driver.c, initialised to 0 and
assigned nowhere. -/
def overflow : Nat := 0

/-- Calls as the program makes them: `CO_CANmodule_process` reads the three
file-static counters. -/
def Op.readsStatics : Op → Bool
  | Op.process r t o => decide (r = rxErrors ∧ t = txErrors ∧ o = overflow)
  | _ => true

/-- Sequence of public operations in which `CO_CANmodule_process` is called in
between sends, a purge and a receive. -/
def programOps : List Op :=
  [Op.rxBufferInit 0 0x180 0x7FF false (some 5) (some 6),
   Op.txBufferInit 0 0x200 false 8 true, Op.process rxErrors txErrors overflow,
   Op.send (some 0) (-1), Op.send (some 0) 0, Op.process rxErrors txErrors overflow,
   Op.clearPendingSyncPDOs, Op.receive 0 (stdFrame 0x180 false),
   Op.process rxErrors txErrors overflow]

/-- Module reached from `scenarioInit` by `programOps`. -/
def programFinal : CO_CANmodule_t :=
  (run canopenNodeBits scenarioInit programOps).getD rawModule

/-- Sends, purges and refreshes on `resendFinal`, whose slot 0 is full and not
synchronous. -/
def pressureOps : List Op :=
  [Op.send (some 0) 0, Op.clearPendingSyncPDOs, Op.process 0 300 0, Op.send (some 1) (-1),
   Op.clearPendingSyncPDOs, Op.send (some 0) (-1)]

/-- Module reached from `resendFinal` by `pressureOps`. -/
def pressureFinal : CO_CANmodule_t :=
  (run canopenNodeBits resendFinal pressureOps).getD rawModule

/-! ## Lemmas on arrays -/

theorem length_updateAt {α : Type} (f : α → α) (i : Nat) (l : List α) :
    (updateAt f i l).length = l.length := by
  induction l generalizing i with
  | nil => cases i <;> rfl
  | cons a as ih =>
    cases i with
    | zero => rfl
    | succ i => simp [updateAt, ih]

theorem getElem?_updateAt {α : Type} (f : α → α) (i j : Nat) (l : List α) :
    (updateAt f i l)[j]? = if j = i then (l[j]?).map f else l[j]? := by
  induction l generalizing i j with
  | nil => cases i <;> simp [updateAt]
  | cons a as ih =>
    cases i with
    | zero =>
      cases j with
      | zero => simp [updateAt]
      | succ j => simp [updateAt]
    | succ i =>
      cases j with
      | zero => simp [updateAt]
      | succ j => simp [updateAt, ih]

theorem getElem?_foldl_updateAt {α : Type} (f : α → α) (n j : Nat) (l : List α) :
    ((List.range n).foldl (fun arr i => updateAt f i arr) l)[j]? =
      if j < n then (l[j]?).map f else l[j]? := by
  induction n with
  | zero => simp
  | succ n ih =>
    rw [List.range_succ, List.foldl_append]
    simp only [List.foldl_cons, List.foldl_nil, getElem?_updateAt, ih]
    by_cases h1 : j = n
    · subst h1; simp
    · by_cases h2 : j < n
      · have : j < n + 1 := by omega
        simp [h1, h2, this]
      · have : ¬ j < n + 1 := by omega
        simp [h1, h2, this]

theorem length_foldl_updateAt {α : Type} (f : α → α) (n : Nat) (l : List α) :
    ((List.range n).foldl (fun arr i => updateAt f i arr) l).length = l.length := by
  induction n with
  | zero => simp
  | succ n ih =>
    rw [List.range_succ, List.foldl_append]
    simp [length_updateAt, ih]

/-! ## Lemmas on the receive search -/

theorem rxScan_none (ident : Nat) (index : Nat) (l : List CO_CANrx_t) (pos : Nat)
    (h : ∀ j s, j < index → l[j]? = some s → (ident ^^^ s.ident) &&& s.mask ≠ 0) :
    rxScan ident index l pos = none := by
  induction index generalizing l pos with
  | zero => cases l <;> rfl
  | succ index ih =>
    cases l with
    | nil => rfl
    | cons b rest =>
      have hb := h 0 b (by omega) (by simp)
      simp only [rxScan, hb, if_false]
      apply ih
      intro j s hj hs
      exact h (j + 1) s (by omega) (by simpa using hs)

theorem rxScan_first (ident : Nat) (index : Nat) (l : List CO_CANrx_t) (pos i : Nat)
    (slot : CO_CANrx_t) (hi : i < index) (hs : l[i]? = some slot)
    (hm : (ident ^^^ slot.ident) &&& slot.mask = 0)
    (h : ∀ j s, j < i → l[j]? = some s → (ident ^^^ s.ident) &&& s.mask ≠ 0) :
    rxScan ident index l pos = some (pos + i, slot) := by
  induction index generalizing l pos i with
  | zero => omega
  | succ index ih =>
    cases l with
    | nil => simp at hs
    | cons b rest =>
      cases i with
      | zero =>
        simp at hs
        subst hs
        simp [rxScan, hm]
      | succ i =>
        have hb := h 0 b (by omega) (by simp)
        simp only [rxScan, hb, if_false]
        rw [ih rest (pos + 1) i (by omega) (by simpa using hs)]
        · congr 2; omega
        · intro j s hj hjs
          exact h (j + 1) s (by omega) (by simpa using hjs)

/-- The slot that `CANreceive` dispatches to is the first one (lowest index)
among the first `rxSize` slots that accepts the identifier. -/
theorem CANreceive_first (m : CO_CANmodule_t) (ret : esp_err_t) (rcvMsg : twai_message_t)
    (hf : m.useCANrxFilters = false) (i : Nat) (slot : CO_CANrx_t)
    (hi : i < m.rxSize) (hs : m.rxArray[i]? = some slot)
    (hm : (rcvMsg.identifier ^^^ slot.ident) &&& slot.mask = 0)
    (h : ∀ j s, j < i → m.rxArray[j]? = some s →
      (rcvMsg.identifier ^^^ s.ident) &&& s.mask ≠ 0) :
    CANreceive m ret rcvMsg =
      (m, match slot.CANrx_callback with
          | some cb => [{ callback := cb, object := slot.object, message := rcvMsg }]
          | none => []) := by
  unfold CANreceive
  simp only [hf, Bool.false_eq_true, if_false]
  rw [rxScan_first rcvMsg.identifier m.rxSize m.rxArray 0 i slot hi hs hm h]
  cases hcb : slot.CANrx_callback <;> simp [hcb]

theorem CANreceive_none (m : CO_CANmodule_t) (ret : esp_err_t) (rcvMsg : twai_message_t)
    (h : ∀ j s, j < m.rxSize → m.rxArray[j]? = some s →
      (rcvMsg.identifier ^^^ s.ident) &&& s.mask ≠ 0) :
    CANreceive m ret rcvMsg = (m, []) := by
  unfold CANreceive
  cases hf : m.useCANrxFilters <;>
    simp [rxScan_none rcvMsg.identifier m.rxSize m.rxArray 0 h]

/-! ## C1, C2: dispatch of a received frame -/

/-- C1: with hardware filtering inactive, a slot accepts a frame iff
`((identifier XOR slot.ident) AND slot.mask) = 0`. If exactly one of the first
`rxSize` slots accepts the frame and it has a callback, `CANreceive` invokes
that callback once, with the slot's consumer object and the received frame, and
nothing else. If no slot accepts the frame no callback is invoked. In both cases
the module is unchanged. -/
theorem C1_receive_unique_match (m : CO_CANmodule_t) (ret : esp_err_t)
    (rcvMsg : twai_message_t) (hf : m.useCANrxFilters = false) :
    (∀ i slot cb, i < m.rxSize → m.rxArray[i]? = some slot →
        (∀ j s, j < m.rxSize → m.rxArray[j]? = some s →
          ((rcvMsg.identifier ^^^ s.ident) &&& s.mask = 0 ↔ j = i)) →
        slot.CANrx_callback = some cb →
        CANreceive m ret rcvMsg =
          (m, [{ callback := cb, object := slot.object, message := rcvMsg }])) ∧
    ((∀ j s, j < m.rxSize → m.rxArray[j]? = some s →
        (rcvMsg.identifier ^^^ s.ident) &&& s.mask ≠ 0) →
      CANreceive m ret rcvMsg = (m, [])) := by
  refine ⟨?_, CANreceive_none m ret rcvMsg⟩
  intro i slot cb hi hs huniq hcb
  have hm : (rcvMsg.identifier ^^^ slot.ident) &&& slot.mask = 0 := (huniq i slot hi hs).2 rfl
  have hlt : ∀ j s, j < i → m.rxArray[j]? = some s →
      (rcvMsg.identifier ^^^ s.ident) &&& s.mask ≠ 0 := by
    intro j s hj hjs hz
    have := (huniq j s (by omega) hjs).1 hz
    omega
  rw [CANreceive_first m ret rcvMsg hf i slot hi hs hm hlt, hcb]

/-- Witness of C1: in `disjointModule` the frame 0x200 is accepted by slot 1
only and reaches callback 200; the frame 0x300 is accepted by no slot. -/
theorem C1_receive_unique_match_witness :
    CANreceive disjointModule 0 (stdFrame 0x200 false) =
        (disjointModule,
          [{ callback := 200, object := some 20, message := stdFrame 0x200 false }]) ∧
      CANreceive disjointModule 0 (stdFrame 0x300 false) = (disjointModule, []) := by
  refine ⟨(C1_receive_unique_match disjointModule 0 (stdFrame 0x200 false) rfl).1 1
      { ident := 0x200, mask := 0xFFF, object := some 20, CANrx_callback := some 200 } 200
      (by decide) rfl ?_ rfl,
    (C1_receive_unique_match disjointModule 0 (stdFrame 0x300 false) rfl).2 ?_⟩
  · intro j s hj hs
    have hj2 : j < 2 := hj
    interval_cases j
    · simp [disjointModule] at hs
      subst hs
      decide
    · simp [disjointModule] at hs
      subst hs
      decide
  · intro j s hj hs
    have hj2 : j < 2 := hj
    interval_cases j
    · simp [disjointModule] at hs
      subst hs
      decide
    · simp [disjointModule] at hs
      subst hs
      decide

/-- Counterexample to C2 as stated: after `CO_CANmodule_init` and two
registrations (index 0: identifier 0x180, mask 0x7FF, callback 100; index 1:
identifier 0x180, mask 0x7F0, callback 200) slots 0 and 1 both accept the frame
0x180, and the callback invoked is that of slot 0, not that of the highest
matching slot 1. -/
theorem C2_highest_index_counterexample :
    CO_CANrxBufferInit (some scenarioInit) 0 0x180 0x7FF false (some 10) (some 100) =
      (CO_ReturnError_t.CO_ERROR_NO, some overlapFirst) ∧
    CO_CANrxBufferInit (some overlapFirst) 1 0x180 0x7F0 false (some 20) (some 200) =
      (CO_ReturnError_t.CO_ERROR_NO, some overlapModule) ∧
    overlapModule.useCANrxFilters = false ∧
    (overlapModule.rxArray.map
        (fun s => decide (((stdFrame 0x180 false).identifier ^^^ s.ident) &&& s.mask = 0)))
      = [true, true, false, false] ∧
    (CANreceive overlapModule 0 (stdFrame 0x180 false)).2 =
      [{ callback := 100, object := some 10, message := stdFrame 0x180 false }] ∧
    (CANreceive overlapModule 0 (stdFrame 0x180 false)).2 ≠
      [{ callback := 200, object := some 20, message := stdFrame 0x180 false }] := by
  decide

/-- C2 (amended): with hardware filtering inactive, `CANreceive` selects the
accepting slot with the lowest index among the first `rxSize` slots. If that
slot has a callback, that callback and no other is invoked; if it has none, no
callback is invoked, whatever the later slots hold. -/
theorem C2_lowest_index_wins (m : CO_CANmodule_t) (ret : esp_err_t) (rcvMsg : twai_message_t)
    (hf : m.useCANrxFilters = false) (i : Nat) (slot : CO_CANrx_t)
    (hi : i < m.rxSize) (hs : m.rxArray[i]? = some slot)
    (hm : (rcvMsg.identifier ^^^ slot.ident) &&& slot.mask = 0)
    (hfirst : ∀ j s, j < i → m.rxArray[j]? = some s →
      (rcvMsg.identifier ^^^ s.ident) &&& s.mask ≠ 0) :
    CANreceive m ret rcvMsg =
      (m, match slot.CANrx_callback with
          | some cb => [{ callback := cb, object := slot.object, message := rcvMsg }]
          | none => []) :=
  CANreceive_first m ret rcvMsg hf i slot hi hs hm hfirst

/-- Witness of C2 (amended): in `overlapModule` slot 0 is the first slot that
accepts the frame 0x180. -/
theorem C2_lowest_index_wins_witness :
    CANreceive overlapModule 0 (stdFrame 0x180 false) =
      (overlapModule,
        [{ callback := 100, object := some 10, message := stdFrame 0x180 false }]) :=
  C2_lowest_index_wins overlapModule 0 (stdFrame 0x180 false) rfl 0
    { ident := 0x180, mask := 0xFFF, object := some 10, CANrx_callback := some 100 }
    (by decide) rfl (by decide) (by intro j s hj; omega)

/-! ## C3, C4: registration followed by dispatch -/

theorem and_0x7FF_of_lt {x : Nat} (h : x < 2048) : x &&& 0x07FF = x :=
  Nat.and_pow_two_sub_one_of_lt_two_pow (n := 11) h

theorem xor_and_0xFFF {x y : Nat} (hx : x < 2048) (hy : y < 2048) :
    (x ^^^ y) &&& 0xFFF = 0 ↔ x = y := by
  have h : x ^^^ y < 2 ^ 12 :=
    Nat.xor_lt_two_pow (Nat.lt_trans hx (by norm_num)) (Nat.lt_trans hy (by norm_num))
  have h2 : (x ^^^ y) &&& 0xFFF = x ^^^ y :=
    Nat.and_pow_two_sub_one_of_lt_two_pow (n := 12) h
  rw [h2, Nat.xor_eq_zero]

theorem xor_zero_and_0xFFFF {x : Nat} (hx : x < 2048) : (x ^^^ 0) &&& 0xFFFF = x := by
  rw [Nat.xor_zero]
  exact Nat.and_pow_two_sub_one_of_lt_two_pow (n := 16) (Nat.lt_trans hx (by norm_num))

theorem rxScan_some (ident : Nat) (index : Nat) (l : List CO_CANrx_t) (pos p : Nat)
    (b : CO_CANrx_t) (h : rxScan ident index l pos = some (p, b)) :
    ∃ j, j < index ∧ l[j]? = some b ∧ (ident ^^^ b.ident) &&& b.mask = 0 := by
  induction index generalizing l pos with
  | zero => cases l <;> simp [rxScan] at h
  | succ index ih =>
    cases l with
    | nil => simp [rxScan] at h
    | cons a rest =>
      simp only [rxScan] at h
      split_ifs at h with hm
      · simp only [Option.some.injEq, Prod.mk.injEq] at h
        obtain ⟨-, rfl⟩ := h
        exact ⟨0, by omega, by simp, hm⟩
      · obtain ⟨j, hj, hjs, hjm⟩ := ih rest (pos + 1) h
        exact ⟨j + 1, by omega, by simpa using hjs, hjm⟩

/-- No callback is invoked when every accepting slot lacks a callback. -/
theorem CANreceive_nil (m : CO_CANmodule_t) (ret : esp_err_t) (rcvMsg : twai_message_t)
    (h : ∀ j s, j < m.rxSize → m.rxArray[j]? = some s →
      (rcvMsg.identifier ^^^ s.ident) &&& s.mask = 0 → s.CANrx_callback = none) :
    CANreceive m ret rcvMsg = (m, []) := by
  unfold CANreceive
  cases hf : m.useCANrxFilters
  · cases hscan : rxScan rcvMsg.identifier m.rxSize m.rxArray 0 with
    | none => simp [hscan]
    | some r =>
      obtain ⟨p, b⟩ := r
      obtain ⟨j, hj, hjs, hjm⟩ := rxScan_some _ _ _ _ _ _ hscan
      have := h j b hj hjs hjm
      simp [hscan, this]
  · simp

/-- Receive array after `CO_CANmodule_init` and one registration at `index`. -/
theorem getElem?_registered (rxArray : List CO_CANrx_t) (rxSize index j : Nat)
    (buffer : CO_CANrx_t) (hlen : rxSize ≤ rxArray.length) (hj : j < rxSize) :
    (updateAt (fun _ => buffer) index (initRxArray rxArray rxSize))[j]? =
      some (if j = index then buffer else resetRx) := by
  have hj2 : j < rxArray.length := by omega
  rw [getElem?_updateAt]
  unfold initRxArray
  rw [getElem?_foldl_updateAt
    (fun _ => ({ ident := 0, mask := 0xFFFF, object := none, CANrx_callback := none } : CO_CANrx_t))]
  simp only [hj, if_true]
  rw [List.getElem?_eq_getElem hj2]
  by_cases h : j = index <;> simp [h, resetRx]

/-- Counterexample to C3 as stated: with `rxSize = 4`, a filter for identifier
0 registered at index 1 is not reached by a frame with identifier 0, because
the unregistered slot 0 (`ident = 0`, `mask = 0xFFFF`, no callback) accepts
identifier 0 first; no callback is invoked although `x = id`. -/
theorem C3_identifier_zero_counterexample :
    CO_CANmodule_init (some rawModule) none (some [rawRx, rawRx, rawRx, rawRx]) 4
        (some [rawTx, rawTx]) 2 0 ESP_OK =
      some (CO_ReturnError_t.CO_ERROR_NO, some scenarioInit,
        some scenarioInit.rxArray, some scenarioInit.txArray) ∧
    CO_CANrxBufferInit (some scenarioInit) 1 0 0x7FF false (some 5) (some 6) =
      (CO_ReturnError_t.CO_ERROR_NO, some (scenarioReg 1 0 false)) ∧
    CANreceive (scenarioReg 1 0 false) 0 (stdFrame 0 false) = (scenarioReg 1 0 false, []) :=
  ⟨rfl, rfl, rfl⟩

/-- C3 (amended): after `CO_CANmodule_init` on an array of at least `rxSize`
slots and one successful `CO_CANrxBufferInit(index, id, 0x7FF, not remote,
consumer, cb)` with an 11-bit `id`, dispatching a frame with 11-bit identifier
`x` invokes `cb` exactly once (with that consumer and the frame) when `x = id`
and (`id ≠ 0` or `index = 0`), and invokes no callback otherwise: not when
`x ≠ id`, and not when `x = id = 0` with `index > 0`. -/
theorem C3_init_register_dispatch (CANmodule : CO_CANmodule_t) (CANptr : Option Ptr)
    (rxArray : List CO_CANrx_t) (rxSize : Nat) (txArray : List CO_CANtx_t)
    (txSize CANbitRate index id : Nat) (consumer cb : Ptr) (m0 m1 : CO_CANmodule_t)
    (rx1 : Option (List CO_CANrx_t)) (tx1 : Option (List CO_CANtx_t))
    (ret : esp_err_t) (rcvMsg : twai_message_t)
    (hlen : rxSize ≤ rxArray.length) (hindex : index < rxSize) (hid : id < 2048)
    (hx : rcvMsg.identifier < 2048)
    (hinit : CO_CANmodule_init (some CANmodule) CANptr (some rxArray) rxSize
        (some txArray) txSize CANbitRate ESP_OK =
      some (CO_ReturnError_t.CO_ERROR_NO, some m0, rx1, tx1))
    (hreg : CO_CANrxBufferInit (some m0) index id 0x7FF false (some consumer) (some cb) =
      (CO_ReturnError_t.CO_ERROR_NO, some m1)) :
    CANreceive m1 ret rcvMsg =
      (m1, if rcvMsg.identifier = id ∧ (id ≠ 0 ∨ index = 0) then
            [{ callback := cb, object := some consumer, message := rcvMsg }]
          else []) := by
  simp only [CO_CANmodule_init, ESP_OK, if_true, Option.some.injEq, Prod.mk.injEq,
    true_and] at hinit
  obtain ⟨hm0, -, -⟩ := hinit
  subst hm0
  simp only [CO_CANrxBufferInit, hindex, if_true, Prod.mk.injEq, Option.some.injEq,
    true_and, Bool.false_eq_true, if_false] at hreg
  subst hreg
  have hmask : (0x7FF &&& 0x07FF) ||| 0x0800 = 0xFFF := by decide
  rw [and_0x7FF_of_lt hid, hmask]
  set buffer : CO_CANrx_t :=
    { object := some consumer, CANrx_callback := some cb, ident := id, mask := 0xFFF }
    with hbuffer
  have hget : ∀ j, j < rxSize →
      (updateAt (fun _ => buffer) index (initRxArray rxArray rxSize))[j]? =
        some (if j = index then buffer else resetRx) :=
    fun j hj => getElem?_registered rxArray rxSize index j buffer hlen hj
  by_cases hc : rcvMsg.identifier = id ∧ (id ≠ 0 ∨ index = 0)
  · obtain ⟨hxid, hz⟩ := hc
    rw [if_pos ⟨hxid, hz⟩]
    have := CANreceive_first
      { CANptr := CANptr, rxArray := updateAt (fun _ => buffer) index (initRxArray rxArray rxSize),
        rxSize := rxSize, txArray := initTxArray txArray txSize, txSize := txSize,
        CANerrorStatus := 0, CANnormal := false, useCANrxFilters := false,
        bufferInhibitFlag := false, firstCANtxMessage := true, CANtxCount := 0, errOld := 0 }
      ret rcvMsg rfl index buffer hindex (by simpa using hget index hindex)
      (by simpa [hbuffer] using (xor_and_0xFFF hx hid).2 hxid)
      (by
        intro j s hj hjs
        have h1 := hget j (by omega)
        simp only [] at hjs
        rw [h1] at hjs
        have hne : j ≠ index := by omega
        simp only [hne, if_false, Option.some.injEq] at hjs
        subst hjs
        simp only [resetRx]
        rw [xor_zero_and_0xFFFF hx]
        rcases hz with hz | hz
        · omega
        · omega)
    simpa [hbuffer] using this
  · rw [if_neg hc]
    by_cases hxid : rcvMsg.identifier = id
    · have hj0 : ¬ (id ≠ 0 ∨ index = 0) := fun h => hc ⟨hxid, h⟩
      simp only [not_or, not_not] at hj0
      obtain ⟨hid0, hindex0⟩ := hj0
      have h0 := hget 0 (by omega)
      have hne : (0 : Nat) ≠ index := fun h => hindex0 h.symm
      simp only [hne, if_false] at h0
      have := CANreceive_first
        { CANptr := CANptr,
          rxArray := updateAt (fun _ => buffer) index (initRxArray rxArray rxSize),
          rxSize := rxSize, txArray := initTxArray txArray txSize, txSize := txSize,
          CANerrorStatus := 0, CANnormal := false, useCANrxFilters := false,
          bufferInhibitFlag := false, firstCANtxMessage := true, CANtxCount := 0, errOld := 0 }
        ret rcvMsg rfl 0 resetRx (by simp only []; omega) h0
        (by simp only [resetRx]; rw [xor_zero_and_0xFFFF hx]; omega)
        (by intro j s hj; omega)
      simpa [resetRx] using this
    · apply CANreceive_nil
      intro j s hj hjs hm
      have h1 := hget j hj
      simp only [] at hjs
      rw [h1] at hjs
      by_cases hji : j = index
      · exfalso
        simp only [hji, if_true, Option.some.injEq] at hjs
        subst hjs
        exact hxid ((xor_and_0xFFF hx hid).1 (by simpa [hbuffer] using hm))
      · simp only [hji, if_false, Option.some.injEq] at hjs
        subst hjs
        rfl

/-- Witness of C3 (amended): the scenario `rxSize = 4, txSize = 2`, filter at
index 0 for identifier 0x180: the frame 0x180 reaches the callback once, the
frame 0x181 reaches no callback. -/
theorem C3_init_register_dispatch_witness :
    CANreceive (scenarioReg 0 0x180 false) 0 (stdFrame 0x180 false) =
        (scenarioReg 0 0x180 false,
          [{ callback := 6, object := some 5, message := stdFrame 0x180 false }]) ∧
      CANreceive (scenarioReg 0 0x180 false) 0 (stdFrame 0x181 false) =
        (scenarioReg 0 0x180 false, []) :=
  ⟨C3_init_register_dispatch rawModule none [rawRx, rawRx, rawRx, rawRx] 4 [rawTx, rawTx] 2 0
      0 0x180 5 6 scenarioInit (scenarioReg 0 0x180 false) (some scenarioInit.rxArray)
      (some scenarioInit.txArray) 0 (stdFrame 0x180 false)
      (by decide) (by decide) (by decide) (by decide) rfl rfl,
    C3_init_register_dispatch rawModule none [rawRx, rawRx, rawRx, rawRx] 4 [rawTx, rawTx] 2 0
      0 0x180 5 6 scenarioInit (scenarioReg 0 0x180 false) (some scenarioInit.rxArray)
      (some scenarioInit.txArray) 0 (stdFrame 0x181 false)
      (by decide) (by decide) (by decide) (by decide) rfl rfl⟩

/-- A slot registered with `rtr = true` has bit 11 set in `ident` and `mask`,
and `CANreceive` compares it with the bare identifier of the received frame: it
accepts no frame whose identifier has 11 bits, remote request or not. -/
theorem rtr_slot_accepts_no_standard_frame (x ident mask : Nat) (hx : x < 2048) :
    (x ^^^ ((ident &&& 0x07FF) ||| 0x0800)) &&& ((mask &&& 0x07FF) ||| 0x0800) ≠ 0 := by
  intro h
  have h11 := congrArg (fun n => n.testBit 11) h
  have hx11 : x.testBit 11 = false := Nat.testBit_lt_two_pow (i := 11) hx
  have h800 : Nat.testBit 0x0800 11 = true := by decide
  simp [hx11, h800] at h11

/-- C4 (evaluation at the failing input): a slot registered for identifier
0x180 with `rtr = true` is not reached by the remote-request frame 0x180, and a
slot registered with `rtr = false` is reached by the remote-request frame 0x180
just as by the data frame. -/
theorem C4_remote_frame_evaluation :
    CO_CANrxBufferInit (some scenarioInit) 0 0x180 0x7FF true (some 5) (some 6) =
      (CO_ReturnError_t.CO_ERROR_NO, some (scenarioReg 0 0x180 true)) ∧
    CANreceive (scenarioReg 0 0x180 true) 0 (stdFrame 0x180 true) =
      (scenarioReg 0 0x180 true, []) ∧
    CO_CANrxBufferInit (some scenarioInit) 0 0x180 0x7FF false (some 5) (some 6) =
      (CO_ReturnError_t.CO_ERROR_NO, some (scenarioReg 0 0x180 false)) ∧
    CANreceive (scenarioReg 0 0x180 false) 0 (stdFrame 0x180 true) =
      (scenarioReg 0 0x180 false,
        [{ callback := 6, object := some 5, message := stdFrame 0x180 true }]) ∧
    CANreceive (scenarioReg 0 0x180 false) 0 (stdFrame 0x180 false) =
      (scenarioReg 0 0x180 false,
        [{ callback := 6, object := some 5, message := stdFrame 0x180 false }]) :=
  ⟨rfl, rfl, rfl, rfl, rfl⟩

/-! ## C5: the pending count -/

theorem countP_take_updateAt_same {α : Type} (q : α → Bool) (f : α → α) (l : List α)
    (p n : Nat) (h : ∀ b, l[p]? = some b → q (f b) = q b) :
    ((updateAt f p l).take n).countP q = (l.take n).countP q := by
  induction l generalizing p n with
  | nil => cases p <;> rfl
  | cons a as ih =>
    cases p with
    | zero =>
      cases n with
      | zero => rfl
      | succ n =>
        have ha := h a (by simp)
        simp [updateAt, List.countP_cons, ha]
    | succ p =>
      cases n with
      | zero => rfl
      | succ n =>
        have := ih p n (fun b hb => h b (by simpa using hb))
        simp [updateAt, List.countP_cons, this]

theorem countP_take_updateAt_succ {α : Type} (q : α → Bool) (f : α → α) (l : List α)
    (p n : Nat) (b : α) (hb : l[p]? = some b) (hq : q b = false) (hqf : q (f b) = true)
    (hp : p < n) :
    ((updateAt f p l).take n).countP q = (l.take n).countP q + 1 := by
  induction l generalizing p n with
  | nil => simp at hb
  | cons a as ih =>
    cases n with
    | zero => omega
    | succ n =>
      cases p with
      | zero =>
        simp at hb
        subst hb
        simp [updateAt, List.countP_cons, hq, hqf]
      | succ p =>
        have := ih p n (by simpa using hb) (by omega)
        simp only [updateAt, List.take_succ_cons, List.countP_cons, this]
        omega

theorem countP_take_lt {α : Type} (q : α → Bool) (l : List α) (p n : Nat) (b : α)
    (hb : l[p]? = some b) (hq : q b = false) (hp : p < n) :
    (l.take n).countP q + 1 ≤ n := by
  induction l generalizing p n with
  | nil => simp at hb
  | cons a as ih =>
    cases n with
    | zero => omega
    | succ n =>
      cases p with
      | zero =>
        simp at hb
        subst hb
        have h2 : (as.take n).countP q ≤ (as.take n).length := List.countP_le_length _
        have h3 : (as.take n).length ≤ n := by
          rw [List.length_take]; omega
        simp only [List.take_succ_cons, List.countP_cons, hq]
        simp only [Bool.false_eq_true, if_false]
        omega
      | succ p =>
        have := ih p n (by simpa using hb) (by omega)
        simp only [List.take_succ_cons, List.countP_cons]
        split_ifs <;> omega

/-- Loop of `CO_CANclearPendingSyncPDOs`: when the count is at least the number
of full slots, every decrement is matched by one slot that is emptied. -/
theorem clearSyncLoop_count (n : Nat) (l : List CO_CANtx_t) (cnt del : Nat)
    (hle : (l.take n).countP (fun b => b.bufferFull) ≤ cnt) (hcnt : cnt < 65536) :
    (clearSyncLoop n l cnt del).2.1 + (l.take n).countP (fun b => b.bufferFull) =
      cnt + ((clearSyncLoop n l cnt del).1.take n).countP (fun b => b.bufferFull) := by
  induction n generalizing l cnt del with
  | zero => cases l <;> simp [clearSyncLoop]
  | succ n ih =>
    cases l with
    | nil => simp [clearSyncLoop]
    | cons b rest =>
      rw [List.take_succ_cons, List.countP_cons] at hle
      rw [List.take_succ_cons, List.countP_cons]
      by_cases hfs : (b.bufferFull && b.syncFlag) = true
      · have hfull : b.bufferFull = true := by
          cases hbf : b.bufferFull <;> simp [hbf] at hfs ⊢
        rw [if_pos hfull] at hle ⊢
        have hdec : (cnt + 65535) % 65536 = cnt - 1 := by omega
        have h := ih rest (cnt - 1) 2 (by omega) (by omega)
        simp only [clearSyncLoop, hfs, if_true, hdec, List.take_succ_cons, List.countP_cons,
          Bool.false_eq_true, if_false]
        omega
      · have h := ih rest cnt del (by split_ifs at hle <;> omega) hcnt
        simp only [clearSyncLoop, hfs, Bool.false_eq_true, if_false, List.take_succ_cons,
          List.countP_cons]
        omega

theorem CANreceive_fst (m : CO_CANmodule_t) (ret : esp_err_t) (rcvMsg : twai_message_t) :
    (CANreceive m ret rcvMsg).1 = m := by
  unfold CANreceive
  simp only []
  split
  · split <;> rfl
  · rfl

theorem fullCount_le (m : CO_CANmodule_t) : fullCount m ≤ m.txSize := by
  unfold fullCount
  have h1 : (m.txArray.take m.txSize).countP (fun b => b.bufferFull) ≤
      (m.txArray.take m.txSize).length := List.countP_le_length _
  have h2 : (m.txArray.take m.txSize).length ≤ m.txSize := by
    rw [List.length_take]; omega
  omega

theorem countP_initTxArray (txArray : List CO_CANtx_t) (txSize : Nat) :
    ((initTxArray txArray txSize).take txSize).countP (fun b => b.bufferFull) = 0 := by
  rw [List.countP_eq_zero]
  intro a ha
  obtain ⟨j, hj⟩ := List.getElem?_of_mem ha
  rw [List.getElem?_take] at hj
  split_ifs at hj with hlt
  unfold initTxArray at hj
  rw [getElem?_foldl_updateAt (fun b : CO_CANtx_t => { b with bufferFull := false })] at hj
  simp only [hlt, if_true, Option.map_eq_some'] at hj
  obtain ⟨x, -, rfl⟩ := hj
  simp

/-- One guarded operation keeps `txSize` and the equality of `CANtxCount` with
the number of full slots. -/
theorem step_keeps_count (E : StatusBits) (m m1 : CO_CANmodule_t) (op : Op)
    (hsz : m.txSize < 65536) (hinv : m.CANtxCount = fullCount m)
    (hg : opOnEmptySlot m op = true) (hstep : step E m op = some m1) :
    m1.txSize = m.txSize ∧ m1.CANtxCount = fullCount m1 := by
  cases op with
  | rxBufferInit index ident mask rtr object cb =>
    simp only [step, CO_CANrxBufferInit] at hstep
    cases object <;> cases cb <;> simp only [Option.some.injEq] at hstep
    · subst hstep; exact ⟨rfl, hinv⟩
    · subst hstep; exact ⟨rfl, hinv⟩
    · subst hstep; exact ⟨rfl, hinv⟩
    · split_ifs at hstep <;>
        (have h := Option.some.inj hstep
         subst h
         exact ⟨rfl, hinv⟩)
  | txBufferInit index ident rtr noOfBytes syncFlag =>
    simp only [step, CO_CANtxBufferInit] at hstep
    split_ifs at hstep with hidx
    · cases hstep
      refine ⟨rfl, ?_⟩
      simp only [opOnEmptySlot, hidx, decide_True, Bool.true_and, Bool.not_eq_true'] at hg
      simp only [fullCount]
      rw [countP_take_updateAt_same]
      · exact hinv
      · intro b hb
        simp only [slotFull, hb] at hg
        simp [hg]
    · cases hstep; exact ⟨rfl, hinv⟩
  | send buffer ret =>
    cases buffer with
    | none => simp [opOnEmptySlot] at hg
    | some p =>
      simp only [opOnEmptySlot, Bool.and_eq_true, decide_eq_true_eq, Bool.not_eq_true'] at hg
      obtain ⟨hp, hfull⟩ := hg
      simp only [step, CO_CANsend] at hstep
      cases hb : m.txArray[p]? with
      | none => simp [hb] at hstep
      | some b =>
        simp only [slotFull, hb] at hfull
        simp only [hb, hfull, Bool.false_and, Bool.false_eq_true, if_false] at hstep
        by_cases hc : ret = ESP_OK ∧ m.CANtxCount = 0
        · rw [if_pos hc] at hstep
          simp only [Option.map_some', Option.some.injEq] at hstep
          subst hstep
          exact ⟨rfl, hinv⟩
        · rw [if_neg hc] at hstep
          simp only [Option.map_some', Option.some.injEq] at hstep
          subst hstep
          refine ⟨rfl, ?_⟩
          simp only [fullCount]
          rw [countP_take_updateAt_succ (fun b => b.bufferFull)
            (fun b => { b with bufferFull := true }) m.txArray p m.txSize b hb hfull rfl hp]
          have hlt := countP_take_lt (fun b => b.bufferFull) m.txArray p m.txSize b hb hfull hp
          simp only [fullCount] at hinv
          rw [hinv]
          omega
  | clearPendingSyncPDOs =>
    simp only [step, Option.some.injEq] at hstep
    subst hstep
    have hle := fullCount_le m
    by_cases hc : m.CANtxCount = 0
    · refine ⟨rfl, ?_⟩
      simp only [CO_CANclearPendingSyncPDOs, hc, ne_eq, not_true_eq_false, if_false, fullCount]
      simp only [fullCount] at hinv
      rw [← hinv, hc]
    · have h := clearSyncLoop_count m.txSize m.txArray m.CANtxCount
        (if m.bufferInhibitFlag then 1 else 0) (by rw [hinv]; exact Nat.le_refl _)
        (by omega)
      refine ⟨rfl, ?_⟩
      simp only [CO_CANclearPendingSyncPDOs, ne_eq, hc, not_false_eq_true, if_true, fullCount]
      simp only [fullCount] at hinv
      omega
  | process rxErrors txErrors overflow =>
    simp only [step, CO_CANmodule_process, Option.some.injEq] at hstep
    split_ifs at hstep
    · cases hstep; exact ⟨rfl, hinv⟩
    · cases hstep; exact ⟨rfl, hinv⟩
  | receive ret rcvMsg =>
    simp only [step, CANreceive_fst, Option.some.injEq] at hstep
    subst hstep
    exact ⟨rfl, hinv⟩

theorem run_keeps_count (E : StatusBits) (ops : List Op) (m m1 : CO_CANmodule_t)
    (hsz : m.txSize < 65536) (hinv : m.CANtxCount = fullCount m)
    (hg : opsOnEmptySlots E m ops = true) (hrun : run E m ops = some m1) :
    m1.CANtxCount = fullCount m1 := by
  induction ops generalizing m with
  | nil =>
    simp only [run, Option.some.injEq] at hrun
    subst hrun
    exact hinv
  | cons op ops ih =>
    simp only [opsOnEmptySlots, Bool.and_eq_true] at hg
    obtain ⟨hg1, hg2⟩ := hg
    simp only [run] at hrun
    cases hs : step E m op with
    | none => simp [hs] at hrun
    | some m2 =>
      simp only [hs] at hrun hg2
      obtain ⟨h1, h2⟩ := step_keeps_count E m m2 op hsz hinv hg1 hs
      exact ih m2 (by omega) h2 hg2 hrun

/-- Counterexample to C5 as stated: from the initialised scenario module, the
transmit-side sequence `resendOps` (two sends on slot 0 while the transport is
busy) ends with `CANtxCount = 2` and one full slot, and `reinitOps` (slot 0 set
up again while full) ends with `CANtxCount = 1` and no full slot. -/
theorem C5_pending_count_counterexample :
    CO_CANmodule_init (some rawModule) none (some [rawRx, rawRx, rawRx, rawRx]) 4
        (some [rawTx, rawTx]) 2 0 ESP_OK =
      some (CO_ReturnError_t.CO_ERROR_NO, some scenarioInit,
        some scenarioInit.rxArray, some scenarioInit.txArray) ∧
    resendOps.all Op.isTxSide = true ∧
    (run canopenNodeBits scenarioInit resendOps).map (fun m => (m.CANtxCount, fullCount m)) =
      some (2, 1) ∧
    reinitOps.all Op.isTxSide = true ∧
    (run canopenNodeBits scenarioInit reinitOps).map (fun m => (m.CANtxCount, fullCount m)) =
      some (1, 0) :=
  ⟨rfl, rfl, rfl, rfl, rfl⟩

/-- C5 (amended): in every module state reached from a successful
`CO_CANmodule_init` (with a 16-bit `txSize`) by a finite sequence of driver
calls in which every `CO_CANsend` targets a transmit slot below `txSize` that
is empty on entry and every `CO_CANtxBufferInit` targets a slot that is not
full, `CANtxCount` equals the number of transmit slots whose `bufferFull` flag
is true, whatever the transport outcomes. -/
theorem C5_pending_count_on_empty_slots (E : StatusBits) (CANmodule : CO_CANmodule_t)
    (CANptr : Option Ptr) (rxArray : List CO_CANrx_t) (rxSize : Nat)
    (txArray : List CO_CANtx_t) (txSize CANbitRate : Nat) (m0 m : CO_CANmodule_t)
    (rx1 : Option (List CO_CANrx_t)) (tx1 : Option (List CO_CANtx_t)) (ops : List Op)
    (htx : txSize < 65536)
    (hinit : CO_CANmodule_init (some CANmodule) CANptr (some rxArray) rxSize
        (some txArray) txSize CANbitRate ESP_OK =
      some (CO_ReturnError_t.CO_ERROR_NO, some m0, rx1, tx1))
    (hguard : opsOnEmptySlots E m0 ops = true)
    (hrun : run E m0 ops = some m) :
    m.CANtxCount = fullCount m := by
  simp only [CO_CANmodule_init, ESP_OK, if_true, Option.some.injEq, Prod.mk.injEq,
    true_and] at hinit
  obtain ⟨hm0, -, -⟩ := hinit
  subst hm0
  refine run_keeps_count E ops _ m htx ?_ hguard hrun
  simp only [fullCount]
  exact (countP_initTxArray txArray txSize).symm

/-- Witness of C5 (amended): `orderlyOps` from the initialised scenario module;
the run ends with two pending slots. -/
theorem C5_pending_count_on_empty_slots_witness :
    orderlyFinal.CANtxCount = fullCount orderlyFinal ∧ fullCount orderlyFinal = 2 :=
  ⟨C5_pending_count_on_empty_slots canopenNodeBits rawModule none [rawRx, rawRx, rawRx, rawRx] 4
      [rawTx, rawTx] 2 0 scenarioInit orderlyFinal (some scenarioInit.rxArray)
      (some scenarioInit.txArray) orderlyOps (by decide) rfl rfl rfl, rfl⟩

/-! ## C6, C7, C8: CO_CANsend -/

theorem getD_copy_eq (d : List Nat) (h : d.length = 8) :
    (List.range 8).map (fun i => d.getD i 0) = d := by
  apply List.ext_getElem?
  intro n
  rw [List.getElem?_map]
  by_cases hn : n < 8
  · rw [List.getElem?_range hn]
    have hn2 : n < d.length := by omega
    simp [List.getElem?_eq_getElem hn2]
  · have h1 : (List.range 8)[n]? = none := by
      apply List.getElem?_eq_none
      simp only [List.length_range]
      omega
    have h2 : d[n]? = none := by
      apply List.getElem?_eq_none
      omega
    rw [h1, h2]
    rfl

theorem testBit_or_two_pow_mod (s k : Nat) (hk : k < 16) :
    ((s ||| 2 ^ k) % 65536).testBit k = true := by
  have h : (65536 : Nat) = 2 ^ 16 := by norm_num
  rw [h, Nat.testBit_mod_two_pow, Nat.testBit_or, Nat.testBit_two_pow_self]
  simp [hk]

theorem testBit_or_two_pow_mod_of_ne (s k i : Nat) (hs : s < 65536) (hik : i ≠ k) :
    ((s ||| 2 ^ k) % 65536).testBit i = s.testBit i := by
  have h : (65536 : Nat) = 2 ^ 16 := by norm_num
  rw [h, Nat.testBit_mod_two_pow, Nat.testBit_or, Nat.testBit_two_pow_of_ne (Ne.symm hik)]
  by_cases hi : i < 16
  · simp [hi]
  · have : s.testBit i = false := by
      apply Nat.testBit_lt_two_pow
      calc s < 2 ^ 16 := by omega
        _ ≤ 2 ^ i := Nat.pow_le_pow_right (by norm_num) (by omega)
    simp [hi, this]

/-- C6: for a transmit slot that is empty on entry, when the handoff to the
transport fails (`twai_transmit` does not return `ESP_OK`), `CO_CANsend`
returns `CO_ERROR_NO`, the slot is full afterwards with identifier, DLC, data
bytes and sync flag unchanged, `CANtxCount` is incremented by one modulo
`2^16`, and no other slot changes. -/
theorem C6_send_failed_handoff (E : StatusBits) (m : CO_CANmodule_t) (p : Nat)
    (b : CO_CANtx_t) (ret : esp_err_t) (hb : m.txArray[p]? = some b)
    (hempty : b.bufferFull = false) (hfail : ret ≠ ESP_OK) :
    ∃ m1 msg, CO_CANsend E m (some p) ret = some (CO_ReturnError_t.CO_ERROR_NO, m1, msg) ∧
      m1.txArray[p]? = some { ident := b.ident, DLC := b.DLC, data := b.data,
                              bufferFull := true, syncFlag := b.syncFlag } ∧
      m1.CANtxCount = (m.CANtxCount + 1) % 65536 ∧
      (∀ q, q ≠ p → m1.txArray[q]? = m.txArray[q]?) ∧
      m1.txArray.length = m.txArray.length := by
  have hc : ¬ (ret = ESP_OK ∧ m.CANtxCount = 0) := fun h => hfail h.1
  simp only [CO_CANsend, hb, hempty, Bool.false_and, Bool.false_eq_true, if_false, hc]
  refine ⟨_, _, rfl, ?_, rfl, ?_, ?_⟩
  · simp [getElem?_updateAt, hb]
  · intro q hq
    simp [getElem?_updateAt, hq]
  · simp [length_updateAt]

/-- Witness of C6: slot 0 of the initialised scenario module, transport
failing with code -1. -/
theorem C6_send_failed_handoff_witness :
    ∃ m1 msg, CO_CANsend canopenNodeBits scenarioInit (some 0) (-1) =
        some (CO_ReturnError_t.CO_ERROR_NO, m1, msg) ∧
      m1.txArray[0]? = some { ident := rawTx.ident, DLC := rawTx.DLC, data := rawTx.data,
                              bufferFull := true, syncFlag := rawTx.syncFlag } ∧
      m1.CANtxCount = (scenarioInit.CANtxCount + 1) % 65536 ∧
      (∀ q, q ≠ 0 → m1.txArray[q]? = scenarioInit.txArray[q]?) ∧
      m1.txArray.length = scenarioInit.txArray.length :=
  C6_send_failed_handoff canopenNodeBits scenarioInit 0 rawTx (-1) rfl rfl (by decide)

/-- C7: for every module, slot and transport outcome, `CO_CANsend` returns
`CO_ERROR_TX_OVERFLOW` iff the slot was full on entry and `CO_ERROR_NO`
otherwise. When the slot was full and `firstCANtxMessage` is false the call
sets the tx-overflow bit of `CANerrorStatus` and leaves its other bits; in
every other case `CANerrorStatus` is unchanged. -/
theorem C7_send_overflow_signal (E : StatusBits) (m : CO_CANmodule_t) (p : Nat)
    (b : CO_CANtx_t) (ret : esp_err_t) (hE : E.independent)
    (hstatus : m.CANerrorStatus < 65536) (hb : m.txArray[p]? = some b) :
    ∃ err m1 msg, CO_CANsend E m (some p) ret = some (err, m1, msg) ∧
      (err = CO_ReturnError_t.CO_ERROR_TX_OVERFLOW ↔ b.bufferFull = true) ∧
      (err = CO_ReturnError_t.CO_ERROR_NO ↔ b.bufferFull = false) ∧
      (b.bufferFull = true ∧ m.firstCANtxMessage = false →
        m1.CANerrorStatus.testBit E.txOverflow = true ∧
        ∀ i, i ≠ E.txOverflow → m1.CANerrorStatus.testBit i = m.CANerrorStatus.testBit i) ∧
      (¬ (b.bufferFull = true ∧ m.firstCANtxMessage = false) →
        m1.CANerrorStatus = m.CANerrorStatus) := by
  have hk : E.txOverflow < 16 := hE.2 _ (by simp [StatusBits.positions])
  simp only [CO_CANsend, hb]
  by_cases hc : ret = ESP_OK ∧ m.CANtxCount = 0
  · rw [if_pos hc]
    refine ⟨_, _, _, rfl, ?_, ?_, ?_, ?_⟩
    · cases b.bufferFull <;> simp
    · cases b.bufferFull <;> simp
    · rintro ⟨h1, h2⟩
      simp only [h1, h2, Bool.not_false, Bool.and_self, if_true, CO_CAN_ERRTX_OVERFLOW]
      exact ⟨testBit_or_two_pow_mod _ _ hk,
        fun i hi => testBit_or_two_pow_mod_of_ne _ _ _ hstatus hi⟩
    · intro h
      cases h1 : b.bufferFull <;> cases h2 : m.firstCANtxMessage <;> simp_all
  · rw [if_neg hc]
    refine ⟨_, _, _, rfl, ?_, ?_, ?_, ?_⟩
    · cases b.bufferFull <;> simp
    · cases b.bufferFull <;> simp
    · rintro ⟨h1, h2⟩
      simp only [h1, h2, Bool.not_false, Bool.and_self, if_true, CO_CAN_ERRTX_OVERFLOW]
      exact ⟨testBit_or_two_pow_mod _ _ hk,
        fun i hi => testBit_or_two_pow_mod_of_ne _ _ _ hstatus hi⟩
    · intro h
      cases h1 : b.bufferFull <;> cases h2 : m.firstCANtxMessage <;> simp_all

/-- Witness of C7: a second send on the full slot 0 of `fullSlotModule`. -/
theorem C7_send_overflow_signal_witness :
    ∃ err m1 msg, CO_CANsend canopenNodeBits fullSlotModule (some 0) (-1) =
        some (err, m1, msg) ∧
      (err = CO_ReturnError_t.CO_ERROR_TX_OVERFLOW ↔ true = true) ∧
      (err = CO_ReturnError_t.CO_ERROR_NO ↔ true = false) ∧
      (true = true ∧ fullSlotModule.firstCANtxMessage = false →
        m1.CANerrorStatus.testBit canopenNodeBits.txOverflow = true ∧
        ∀ i, i ≠ canopenNodeBits.txOverflow →
          m1.CANerrorStatus.testBit i = fullSlotModule.CANerrorStatus.testBit i) ∧
      (¬ (true = true ∧ fullSlotModule.firstCANtxMessage = false) →
        m1.CANerrorStatus = fullSlotModule.CANerrorStatus) :=
  C7_send_overflow_signal canopenNodeBits fullSlotModule 0
    { ident := 0, DLC := 0, data := [0, 0, 0, 0, 0, 0, 0, 0], bufferFull := true,
      syncFlag := false } (-1) (by decide) (by decide) rfl

/-- C8: with `CANtxCount = 0`, when the transport reports the frame delivered
(`ESP_OK`), `CO_CANsend` sets `bufferInhibitFlag` to the slot's `syncFlag`,
leaves the transmit array (so the slot's `bufferFull` flag) and `CANtxCount`
unchanged, and the frame handed to the transport carries the slot's
identifier, DLC and eight data bytes. -/
theorem C8_send_delivered (E : StatusBits) (m : CO_CANmodule_t) (p : Nat)
    (b : CO_CANtx_t) (ret : esp_err_t) (hb : m.txArray[p]? = some b)
    (hdata : b.data.length = 8) (hcount : m.CANtxCount = 0) (hok : ret = ESP_OK) :
    ∃ err m1 msg, CO_CANsend E m (some p) ret = some (err, m1, msg) ∧
      m1.bufferInhibitFlag = b.syncFlag ∧
      m1.txArray = m.txArray ∧
      m1.CANtxCount = m.CANtxCount ∧
      msg.identifier = b.ident ∧ msg.data_length_code = b.DLC ∧ msg.data = b.data := by
  have hc : ret = ESP_OK ∧ m.CANtxCount = 0 := ⟨hok, hcount⟩
  simp only [CO_CANsend, hb]
  rw [if_pos hc]
  exact ⟨_, _, _, rfl, rfl, rfl, rfl, rfl, rfl, getD_copy_eq b.data hdata⟩

/-- Witness of C8: slot 0 of the initialised scenario module, frame delivered. -/
theorem C8_send_delivered_witness :
    ∃ err m1 msg, CO_CANsend canopenNodeBits scenarioInit (some 0) ESP_OK =
        some (err, m1, msg) ∧
      m1.bufferInhibitFlag = rawTx.syncFlag ∧
      m1.txArray = scenarioInit.txArray ∧
      m1.CANtxCount = scenarioInit.CANtxCount ∧
      msg.identifier = rawTx.ident ∧ msg.data_length_code = rawTx.DLC ∧
      msg.data = rawTx.data :=
  C8_send_delivered canopenNodeBits scenarioInit 0 rawTx ESP_OK rfl rfl rfl rfl

/-! ## C9, C10: CO_CANmodule_process -/

theorem testBit_mod_65536 (x i : Nat) :
    (x % 65536).testBit i = (decide (i < 16) && x.testBit i) := by
  have h : (65536 : Nat) = 2 ^ 16 := by norm_num
  rw [h, Nat.testBit_mod_two_pow]

theorem testBit_0xFFFF (i : Nat) : Nat.testBit 0xFFFF i = decide (i < 16) := by
  have h : (0xFFFF : Nat) = 2 ^ 16 - 1 := by norm_num
  rw [h, Nat.testBit_two_pow_sub_one]

theorem and_two_pow_eq_zero (n k : Nat) : n &&& 2 ^ k = 0 ↔ n.testBit k = false := by
  constructor
  · intro h
    have := congrArg (fun x => x.testBit k) h
    simpa [Nat.testBit_two_pow_self] using this
  · intro h
    apply Nat.eq_of_testBit_eq
    intro i
    rw [Nat.testBit_and, Nat.testBit_two_pow]
    by_cases hki : k = i
    · subst hki; simp [h]
    · simp [hki]

theorem testBit_processStatus (E : StatusBits) (hE : E.independent)
    (rxErrors txErrors overflow s i : Nat) (htx : txErrors < 256) :
    (processStatus E rxErrors txErrors overflow s).testBit i =
      (decide (i < 16) &&
        (if i = E.rxOverflow then (s.testBit i || decide (overflow ≠ 0))
         else if i = E.txBusOff then false
         else if i = E.rxWarning then decide (96 ≤ rxErrors)
         else if i = E.rxPassive then decide (128 ≤ rxErrors)
         else if i = E.txWarning then decide (128 ≤ txErrors ∨ 96 ≤ rxErrors)
         else if i = E.txPassive then decide (128 ≤ txErrors)
         else if i = E.txOverflow then (s.testBit i && decide (128 ≤ txErrors))
         else s.testBit i)) := by
  obtain ⟨hnd, hlt⟩ := hE
  simp only [StatusBits.positions, List.nodup_cons, List.mem_cons, List.mem_singleton,
    not_or, List.not_mem_nil, not_false_eq_true, List.nodup_nil, and_true] at hnd
  simp only [StatusBits.positions, List.mem_cons, List.mem_singleton, List.not_mem_nil,
    or_false, forall_eq_or_imp, forall_eq] at hlt
  obtain ⟨⟨h01, h02, h03, h04, h05, h06, h07⟩, ⟨h12, h13, h14, h15, h16, h17⟩,
    ⟨h23, h24, h25, h26, h27⟩, ⟨h34, h35, h36, h37⟩, ⟨h45, h46, h47⟩, ⟨h56, h57⟩, h67⟩ := hnd
  obtain ⟨l0, l1, l2, l3, l4, l5, l6, l7⟩ := hlt
  obtain ⟨h10, h20, h30, h40, h50, h60, h70, h21, h31, h41, h51, h61, h71, h32, h42, h52, h62, h72,
    h43, h53, h63, h73, h54, h64, h74, h65, h75, h76⟩ :=
    And.intro (Ne.symm h01) (And.intro (Ne.symm h02) (And.intro (Ne.symm h03)
    (And.intro (Ne.symm h04) (And.intro (Ne.symm h05) (And.intro (Ne.symm h06)
    (And.intro (Ne.symm h07) (And.intro (Ne.symm h12) (And.intro (Ne.symm h13)
    (And.intro (Ne.symm h14) (And.intro (Ne.symm h15) (And.intro (Ne.symm h16)
    (And.intro (Ne.symm h17) (And.intro (Ne.symm h23) (And.intro (Ne.symm h24)
    (And.intro (Ne.symm h25) (And.intro (Ne.symm h26) (And.intro (Ne.symm h27)
    (And.intro (Ne.symm h34) (And.intro (Ne.symm h35) (And.intro (Ne.symm h36)
    (And.intro (Ne.symm h37) (And.intro (Ne.symm h45) (And.intro (Ne.symm h46)
    (And.intro (Ne.symm h47) (And.intro (Ne.symm h56) (And.intro (Ne.symm h57)
    (Ne.symm h67)))))))))))))))))))))))))))
  have h256 : ¬ (txErrors ≥ 256) := by omega
  unfold processStatus
  simp only [h256, if_false, CO_CAN_ERRTX_WARNING, CO_CAN_ERRTX_PASSIVE, CO_CAN_ERRTX_BUS_OFF,
    CO_CAN_ERRTX_OVERFLOW, CO_CAN_ERRRX_WARNING, CO_CAN_ERRRX_PASSIVE, CO_CAN_ERRRX_OVERFLOW,
    and_two_pow_eq_zero]
  by_cases hrx128 : rxErrors ≥ 128 <;> by_cases hrx96 : rxErrors ≥ 96 <;>
    by_cases htx128 : txErrors ≥ 128 <;> by_cases hov : overflow = 0 <;>
    first
    | (exfalso; omega)
    | skip
  all_goals
    simp only [hrx128, hrx96, htx128, hov, if_true, if_false, not_true_eq_false,
      not_false_eq_true, ne_eq]
    simp only [testBit_mod_65536, testBit_0xFFFF, Nat.testBit_two_pow, Nat.testBit_or,
      Nat.testBit_and, Nat.testBit_xor]
    simp only [*, decide_True, decide_False, Bool.true_and, Bool.and_true, Bool.or_true,
      Bool.true_or, Bool.false_or, Bool.or_false, Bool.xor_true, Bool.not_true, Bool.and_false,
      Bool.false_and, if_true, if_false, Bool.true_xor, Bool.not_false, Bool.false_eq_true,
      Bool.xor_false, Bool.false_xor]
    by_cases e7 : i = E.rxOverflow
    · subst e7; simp [testBit_mod_65536, testBit_0xFFFF, Nat.testBit_two_pow, *]
    by_cases e2 : i = E.txBusOff
    · subst e2; simp [testBit_mod_65536, testBit_0xFFFF, Nat.testBit_two_pow, *]
    by_cases e5 : i = E.rxWarning
    · subst e5; simp [testBit_mod_65536, testBit_0xFFFF, Nat.testBit_two_pow, *]
    by_cases e6 : i = E.rxPassive
    · subst e6; simp [testBit_mod_65536, testBit_0xFFFF, Nat.testBit_two_pow, *]
    by_cases e0 : i = E.txWarning
    · subst e0; simp [testBit_mod_65536, testBit_0xFFFF, Nat.testBit_two_pow, *]
    by_cases e1 : i = E.txPassive
    · subst e1; simp [testBit_mod_65536, testBit_0xFFFF, Nat.testBit_two_pow, *]
    by_cases e3 : i = E.txOverflow
    · subst e3; simp [testBit_mod_65536, testBit_0xFFFF, Nat.testBit_two_pow, *]
    have e7s := Ne.symm e7
    have e2s := Ne.symm e2
    have e5s := Ne.symm e5
    have e6s := Ne.symm e6
    have e0s := Ne.symm e0
    have e1s := Ne.symm e1
    have e3s := Ne.symm e3
    by_cases hi : i < 16 <;>
      simp [testBit_mod_65536, testBit_0xFFFF, Nat.testBit_two_pow, *]

theorem processStatus_bus_off (E : StatusBits) (hE : E.independent)
    (rxErrors txErrors overflow s : Nat) (htx : 256 ≤ txErrors) :
    (processStatus E rxErrors txErrors overflow s).testBit E.txBusOff = true := by
  have hk : E.txBusOff < 16 := hE.2 _ (by simp [StatusBits.positions])
  unfold processStatus
  simp only [ge_iff_le, htx, if_true, CO_CAN_ERRTX_BUS_OFF, CO_CAN_ERRRX_OVERFLOW]
  split_ifs
  · simp [testBit_mod_65536, Nat.testBit_two_pow, hk]
  · simp [testBit_mod_65536, Nat.testBit_two_pow, hk]

/-- Counterexample to C9 as stated: with the flag assignment of the CANopenNode
stack, refresh with `txErrors = 300` sets bus-off, and the following refresh
with all counters 0 clears it again. -/
theorem C9_bus_off_counterexample :
    (CO_CANmodule_process canopenNodeBits 0 300 0 scenarioInit).CANerrorStatus.testBit
        canopenNodeBits.txBusOff = true ∧
    (CO_CANmodule_process canopenNodeBits 0 0 0
        (CO_CANmodule_process canopenNodeBits 0 300 0 scenarioInit)).CANerrorStatus.testBit
        canopenNodeBits.txBusOff = false := by
  decide

/-- C9 (amended): for every counter triple with `txErrors >= 256` whose
combined sample differs from the previously observed one,
`CO_CANmodule_process` sets the bus-off bit. Once the bit is set, it is kept by
every call whose sample equals the previously observed one or whose `txErrors`
is at least 256. A call with a changed sample and `txErrors < 256` clears it:
bus-off is not sticky. -/
theorem C9_bus_off_set_and_kept (E : StatusBits) (hE : E.independent)
    (rxErrors txErrors overflow : Nat) (m : CO_CANmodule_t) :
    (m.errOld ≠ errSample rxErrors txErrors overflow → 256 ≤ txErrors →
      (CO_CANmodule_process E rxErrors txErrors overflow m).CANerrorStatus.testBit
        E.txBusOff = true) ∧
    (m.CANerrorStatus.testBit E.txBusOff = true →
      (256 ≤ txErrors ∨ m.errOld = errSample rxErrors txErrors overflow) →
      (CO_CANmodule_process E rxErrors txErrors overflow m).CANerrorStatus.testBit
        E.txBusOff = true) ∧
    (m.errOld ≠ errSample rxErrors txErrors overflow → txErrors < 256 →
      (CO_CANmodule_process E rxErrors txErrors overflow m).CANerrorStatus.testBit
        E.txBusOff = false) := by
  refine ⟨?_, ?_, ?_⟩
  · intro hchg htx
    simp only [CO_CANmodule_process, ne_eq, hchg, not_false_eq_true, if_true]
    exact processStatus_bus_off E hE _ _ _ _ htx
  · intro hset hor
    by_cases hchg : m.errOld = errSample rxErrors txErrors overflow
    · simp only [CO_CANmodule_process, ne_eq, hchg, not_true_eq_false, if_false]
      exact hset
    · have htx : 256 ≤ txErrors := by
        rcases hor with h | h
        · exact h
        · exact absurd h hchg
      simp only [CO_CANmodule_process, ne_eq, hchg, not_false_eq_true, if_true]
      exact processStatus_bus_off E hE _ _ _ _ htx
  · intro hchg htx
    have h27 : E.txBusOff ≠ E.rxOverflow := by
      have := hE.1
      simp only [StatusBits.positions, List.nodup_cons, List.mem_cons, List.mem_singleton,
        not_or] at this
      exact this.2.2.1.2.2.2.2.1
    simp only [CO_CANmodule_process, ne_eq, hchg, not_false_eq_true, if_true]
    rw [testBit_processStatus E hE _ _ _ _ _ htx]
    simp [h27]

/-- Witness of C9 (amended): the CANopenNode flag assignment on the initialised
scenario module, first with `txErrors = 300`, then on a module whose status has
bus-off set, with all counters 0. -/
theorem C9_bus_off_set_and_kept_witness :
    (CO_CANmodule_process canopenNodeBits 0 300 0 scenarioInit).CANerrorStatus.testBit
        canopenNodeBits.txBusOff = true ∧
    (CO_CANmodule_process canopenNodeBits 0 300 0
        { scenarioInit with CANerrorStatus := 4 }).CANerrorStatus.testBit
        canopenNodeBits.txBusOff = true ∧
    (CO_CANmodule_process canopenNodeBits 0 0 0
        { scenarioInit with CANerrorStatus := 4, errOld := 19660800 }).CANerrorStatus.testBit
        canopenNodeBits.txBusOff = false :=
  ⟨(C9_bus_off_set_and_kept canopenNodeBits (by decide) 0 300 0 scenarioInit).1
      (by decide) (by decide),
    (C9_bus_off_set_and_kept canopenNodeBits (by decide) 0 300 0
      { scenarioInit with CANerrorStatus := 4 }).2.1 (by decide) (Or.inl (by decide)),
    (C9_bus_off_set_and_kept canopenNodeBits (by decide) 0 0 0
      { scenarioInit with CANerrorStatus := 4, errOld := 19660800 }).2.2
      (by decide) (by decide)⟩

/-- C10: for every prior status and every counter triple with
`txErrors < 256` whose combined sample differs from the previously observed
one, the status that `CO_CANmodule_process` stores is determined bit by bit:
bus-off is clear; rx-warning is set iff `rxErrors >= 96` and rx-passive iff
`rxErrors >= 128`; tx-passive is set iff `txErrors >= 128` and tx-warning iff
`txErrors >= 128` or `rxErrors >= 96` (the rx count); tx-overflow is kept only
if tx-passive is set; rx-overflow is kept, and set if `overflow != 0`; every
other bit of the 16-bit status, tx-pdo-late included, is kept. -/
theorem C10_process_recomputed_status (E : StatusBits) (hE : E.independent)
    (rxErrors txErrors overflow : Nat) (m : CO_CANmodule_t)
    (hchg : m.errOld ≠ errSample rxErrors txErrors overflow) (htx : txErrors < 256) :
    (CO_CANmodule_process E rxErrors txErrors overflow m).CANerrorStatus.testBit E.txBusOff
        = false ∧
    (CO_CANmodule_process E rxErrors txErrors overflow m).CANerrorStatus.testBit E.rxWarning
        = decide (96 ≤ rxErrors) ∧
    (CO_CANmodule_process E rxErrors txErrors overflow m).CANerrorStatus.testBit E.rxPassive
        = decide (128 ≤ rxErrors) ∧
    (CO_CANmodule_process E rxErrors txErrors overflow m).CANerrorStatus.testBit E.txWarning
        = decide (128 ≤ txErrors ∨ 96 ≤ rxErrors) ∧
    (CO_CANmodule_process E rxErrors txErrors overflow m).CANerrorStatus.testBit E.txPassive
        = decide (128 ≤ txErrors) ∧
    (CO_CANmodule_process E rxErrors txErrors overflow m).CANerrorStatus.testBit E.txOverflow
        = (m.CANerrorStatus.testBit E.txOverflow && decide (128 ≤ txErrors)) ∧
    (CO_CANmodule_process E rxErrors txErrors overflow m).CANerrorStatus.testBit E.rxOverflow
        = (m.CANerrorStatus.testBit E.rxOverflow || decide (overflow ≠ 0)) ∧
    (CO_CANmodule_process E rxErrors txErrors overflow m).CANerrorStatus.testBit E.txPdoLate
        = m.CANerrorStatus.testBit E.txPdoLate ∧
    (∀ i, i < 16 →
      i ∉ [E.txBusOff, E.rxWarning, E.rxPassive, E.txWarning, E.txPassive, E.txOverflow,
            E.rxOverflow] →
      (CO_CANmodule_process E rxErrors txErrors overflow m).CANerrorStatus.testBit i
        = m.CANerrorStatus.testBit i) ∧
    (CO_CANmodule_process E rxErrors txErrors overflow m).CANerrorStatus < 65536 := by
  have hstat : (CO_CANmodule_process E rxErrors txErrors overflow m).CANerrorStatus =
      processStatus E rxErrors txErrors overflow m.CANerrorStatus := by
    simp only [CO_CANmodule_process, ne_eq, hchg, not_false_eq_true, if_true]
  have hbit := fun i => testBit_processStatus E hE rxErrors txErrors overflow m.CANerrorStatus i htx
  rw [hstat]
  obtain ⟨hnd, hlt⟩ := hE
  simp only [StatusBits.positions, List.nodup_cons, List.mem_cons, List.mem_singleton,
    not_or, List.not_mem_nil, not_false_eq_true, List.nodup_nil, and_true] at hnd
  simp only [StatusBits.positions, List.mem_cons, List.mem_singleton, List.not_mem_nil,
    or_false, forall_eq_or_imp, forall_eq] at hlt
  obtain ⟨⟨h01, h02, h03, h04, h05, h06, h07⟩, ⟨h12, h13, h14, h15, h16, h17⟩,
    ⟨h23, h24, h25, h26, h27⟩, ⟨h34, h35, h36, h37⟩, ⟨h45, h46, h47⟩, ⟨h56, h57⟩, h67⟩ := hnd
  obtain ⟨l0, l1, l2, l3, l4, l5, l6, l7⟩ := hlt
  refine ⟨?_, ?_, ?_, ?_, ?_, ?_, ?_, ?_, ?_, ?_⟩
  · rw [hbit]; simp [*]
  · rw [hbit]; simp [*, Ne.symm h25]
  · rw [hbit]; simp [*, Ne.symm h26, Ne.symm h56]
  · rw [hbit]; simp [*]
  · rw [hbit]; simp [*, Ne.symm h01]
  · rw [hbit]; simp [*, Ne.symm h23, Ne.symm h03, Ne.symm h13]
  · rw [hbit]; simp [*]
  · rw [hbit]; simp [*, Ne.symm h24, Ne.symm h04, Ne.symm h14, Ne.symm h34]
  · intro i hi hmem
    simp only [List.mem_cons, List.mem_singleton, List.not_mem_nil, or_false, not_or] at hmem
    obtain ⟨e2, e5, e6, e0, e1, e3, e7⟩ := hmem
    rw [hbit]
    simp [*]
  · apply Nat.lt_pow_two_of_testBit (n := 16)
    intro i hi
    rw [hbit]
    have : ¬ i < 16 := by omega
    simp [this]

/-- Witness of C10: prior status `0xFFFF`, counters `rxErrors = 100`,
`txErrors = 0`, `overflow = 1` on the initialised scenario module. -/
theorem C10_process_recomputed_status_witness :
    (CO_CANmodule_process canopenNodeBits 100 0 1
      { scenarioInit with CANerrorStatus := 0xFFFF }).CANerrorStatus = 0xFDF1 ∧
    (CO_CANmodule_process canopenNodeBits 100 0 1
      { scenarioInit with CANerrorStatus := 0xFFFF }).CANerrorStatus.testBit
        canopenNodeBits.txWarning = decide (128 ≤ 0 ∨ 96 ≤ 100) :=
  ⟨by decide,
    (C10_process_recomputed_status canopenNodeBits (by decide) 100 0 1
      { scenarioInit with CANerrorStatus := 0xFFFF } (by decide) (by decide)).2.2.2.1⟩

/-! ## C11, C12: change detection and idempotence of CO_CANmodule_process -/

theorem errSample_eq (rxErrors txErrors overflow : Nat) (hrx : rxErrors < 256)
    (htx : txErrors < 65536) (hov : overflow < 256) :
    errSample rxErrors txErrors overflow = txErrors * 65536 + rxErrors * 256 + overflow := by
  unfold errSample
  rw [Nat.shiftLeft_eq, Nat.shiftLeft_eq]
  have h1 : txErrors * 2 ^ 16 % 4294967296 = 2 ^ 16 * txErrors := by
    rw [Nat.mod_eq_of_lt (by omega)]; ring
  have h2 : rxErrors * 2 ^ 8 % 4294967296 = 2 ^ 8 * rxErrors := by
    rw [Nat.mod_eq_of_lt (by omega)]; ring
  rw [h1, h2, Nat.lor_assoc, ← Nat.mul_add_lt_is_or (i := 8) (by omega) rxErrors,
    ← Nat.mul_add_lt_is_or (i := 16) (by omega) txErrors]
  omega

/-- Counterexample to C11 as stated: the 16-bit triples `(rx, tx, overflow)` =
`(1, 0, 0)` and `(0, 0, 256)` differ but have the same combined sample 0x100.
After a refresh with the first, a refresh with the second is skipped: the
module is unchanged and rx-overflow stays clear, although recomputing from the
second triple would set it. -/
theorem C11_sample_collision_counterexample :
    ((1 : Nat), (0 : Nat), (0 : Nat)) ≠ (0, 0, 256) ∧
    errSample 1 0 0 = errSample 0 0 256 ∧
    (CO_CANmodule_process canopenNodeBits 1 0 0 scenarioInit).errOld = errSample 1 0 0 ∧
    CO_CANmodule_process canopenNodeBits 0 0 256
        (CO_CANmodule_process canopenNodeBits 1 0 0 scenarioInit) =
      CO_CANmodule_process canopenNodeBits 1 0 0 scenarioInit ∧
    (CO_CANmodule_process canopenNodeBits 1 0 0 scenarioInit).CANerrorStatus = 0 ∧
    processStatus canopenNodeBits 0 0 256
        (CO_CANmodule_process canopenNodeBits 1 0 0 scenarioInit).CANerrorStatus = 0x800 := by
  decide

/-- C11 (amended): `CO_CANmodule_process` skips the recomputation exactly when
the combined sample `(tx << 16) | (rx << 8) | overflow` of the triple equals
the remembered sample `errOld`; otherwise it stores the status recomputed from
the triple and records the sample. For triples with `rxErrors < 256`,
`overflow < 256` and a 16-bit `txErrors` the combined sample distinguishes
every two distinct triples, so for such triples change detection is exact. -/
theorem C11_change_detection (E : StatusBits) (rx1 tx1 ov1 rx2 tx2 ov2 : Nat)
    (m : CO_CANmodule_t) :
    (m.errOld = errSample rx2 tx2 ov2 → CO_CANmodule_process E rx2 tx2 ov2 m = m) ∧
    (m.errOld ≠ errSample rx2 tx2 ov2 →
      CO_CANmodule_process E rx2 tx2 ov2 m =
        { m with errOld := errSample rx2 tx2 ov2
                 CANerrorStatus := processStatus E rx2 tx2 ov2 m.CANerrorStatus }) ∧
    (rx1 < 256 → ov1 < 256 → tx1 < 65536 → rx2 < 256 → ov2 < 256 → tx2 < 65536 →
      (errSample rx1 tx1 ov1 = errSample rx2 tx2 ov2 ↔ (rx1 = rx2 ∧ tx1 = tx2 ∧ ov1 = ov2))) ∧
    (rx1 < 256 → ov1 < 256 → tx1 < 65536 → rx2 < 256 → ov2 < 256 → tx2 < 65536 →
      m.errOld = errSample rx1 tx1 ov1 → ¬ (rx1 = rx2 ∧ tx1 = tx2 ∧ ov1 = ov2) →
      CO_CANmodule_process E rx2 tx2 ov2 m =
        { m with errOld := errSample rx2 tx2 ov2
                 CANerrorStatus := processStatus E rx2 tx2 ov2 m.CANerrorStatus }) := by
  have hinj : rx1 < 256 → ov1 < 256 → tx1 < 65536 → rx2 < 256 → ov2 < 256 → tx2 < 65536 →
      (errSample rx1 tx1 ov1 = errSample rx2 tx2 ov2 ↔
        (rx1 = rx2 ∧ tx1 = tx2 ∧ ov1 = ov2)) := by
    intro a1 b1 c1 a2 b2 c2
    rw [errSample_eq rx1 tx1 ov1 a1 c1 b1, errSample_eq rx2 tx2 ov2 a2 c2 b2]
    omega
  refine ⟨?_, ?_, hinj, ?_⟩
  · intro h
    simp [CO_CANmodule_process, h]
  · intro h
    simp [CO_CANmodule_process, h]
  · intro a1 b1 c1 a2 b2 c2 hprev hne
    have h : m.errOld ≠ errSample rx2 tx2 ov2 := by
      rw [hprev]
      exact fun heq => hne ((hinj a1 b1 c1 a2 b2 c2).1 heq)
    simp [CO_CANmodule_process, h]

/-- Witness of C11 (amended): after a refresh with `(rx, tx, overflow)` =
`(1, 0, 0)` the byte-range triple `(0, 0, 1)` has another sample and is
recomputed. -/
theorem C11_change_detection_witness :
    CO_CANmodule_process canopenNodeBits 0 0 1
        (CO_CANmodule_process canopenNodeBits 1 0 0 scenarioInit) =
      { CO_CANmodule_process canopenNodeBits 1 0 0 scenarioInit with
        errOld := errSample 0 0 1
        CANerrorStatus := processStatus canopenNodeBits 0 0 1
          (CO_CANmodule_process canopenNodeBits 1 0 0 scenarioInit).CANerrorStatus } :=
  (C11_change_detection canopenNodeBits 1 0 0 0 0 1
      (CO_CANmodule_process canopenNodeBits 1 0 0 scenarioInit)).2.2.2
    (by decide) (by decide) (by decide) (by decide) (by decide) (by decide)
    (by decide) (by decide)

/-- C12: `CO_CANmodule_process` is idempotent: a second call with the same
counter triple returns exactly the module that the first call produced. -/
theorem C12_process_idempotent (E : StatusBits) (rxErrors txErrors overflow : Nat)
    (m : CO_CANmodule_t) :
    CO_CANmodule_process E rxErrors txErrors overflow
        (CO_CANmodule_process E rxErrors txErrors overflow m) =
      CO_CANmodule_process E rxErrors txErrors overflow m := by
  by_cases h : m.errOld = errSample rxErrors txErrors overflow
  · simp [CO_CANmodule_process, h]
  · simp [CO_CANmodule_process, h]

/-! ## C13, C14: CO_CANclearPendingSyncPDOs -/

theorem getElem?_clearSyncLoop (n : Nat) (l : List CO_CANtx_t) (cnt del j : Nat) :
    (clearSyncLoop n l cnt del).1[j]? =
      (l[j]?).map (fun b =>
        if j < n ∧ b.bufferFull = true ∧ b.syncFlag = true then
          { b with bufferFull := false }
        else b) := by
  induction n generalizing l cnt del j with
  | zero => cases l <;> simp [clearSyncLoop]
  | succ n ih =>
    cases l with
    | nil => simp [clearSyncLoop]
    | cons b rest =>
      by_cases hfs : (b.bufferFull && b.syncFlag) = true
      · cases j with
        | zero =>
          simp only [clearSyncLoop, hfs, if_true, List.getElem?_cons_zero, Option.map_some']
          simp only [Bool.and_eq_true] at hfs
          simp [hfs.1, hfs.2]
        | succ j =>
          simp only [clearSyncLoop, hfs, if_true, List.getElem?_cons_succ, ih]
          simp
      · cases j with
        | zero =>
          simp only [clearSyncLoop, hfs, Bool.false_eq_true, if_false, List.getElem?_cons_zero,
            Option.map_some']
          simp only [Bool.and_eq_true] at hfs
          simp [hfs]
        | succ j =>
          simp only [clearSyncLoop, hfs, Bool.false_eq_true, if_false, List.getElem?_cons_succ,
            ih]
          simp

theorem clearSyncLoop_cnt (n : Nat) (l : List CO_CANtx_t) (cnt del : Nat)
    (hle : (l.take n).countP (fun b => b.bufferFull && b.syncFlag) ≤ cnt)
    (hcnt : cnt < 65536) :
    (clearSyncLoop n l cnt del).2.1 =
      cnt - (l.take n).countP (fun b => b.bufferFull && b.syncFlag) := by
  induction n generalizing l cnt del with
  | zero => cases l <;> simp [clearSyncLoop]
  | succ n ih =>
    cases l with
    | nil => simp [clearSyncLoop]
    | cons b rest =>
      rw [List.take_succ_cons, List.countP_cons] at hle
      rw [List.take_succ_cons, List.countP_cons]
      by_cases hfs : (b.bufferFull && b.syncFlag) = true
      · rw [if_pos hfs] at hle ⊢
        have hdec : (cnt + 65535) % 65536 = cnt - 1 := by omega
        simp only [clearSyncLoop, hfs, if_true, hdec]
        rw [ih rest (cnt - 1) 2 (by omega) (by omega)]
        omega
      · rw [if_neg hfs] at hle ⊢
        simp only [clearSyncLoop, hfs, Bool.false_eq_true, if_false]
        rw [ih rest cnt del (by omega) hcnt]
        omega

theorem clearSyncLoop_del (n : Nat) (l : List CO_CANtx_t) (cnt del : Nat) :
    (clearSyncLoop n l cnt del).2.2 =
      if (l.take n).countP (fun b => b.bufferFull && b.syncFlag) = 0 then del else 2 := by
  induction n generalizing l cnt del with
  | zero => cases l <;> simp [clearSyncLoop]
  | succ n ih =>
    cases l with
    | nil => simp [clearSyncLoop]
    | cons b rest =>
      rw [List.take_succ_cons, List.countP_cons]
      by_cases hfs : (b.bufferFull && b.syncFlag) = true
      · rw [if_pos hfs]
        simp only [clearSyncLoop, hfs, if_true, ih]
        have hne : ¬ ((rest.take n).countP (fun b => b.bufferFull && b.syncFlag) + 1 = 0) := by
          omega
        rw [if_neg hne]
        split_ifs <;> rfl
      · rw [if_neg hfs]
        simp only [clearSyncLoop, hfs, Bool.false_eq_true, if_false, ih, Nat.add_zero]

theorem clearSyncLoop_of_none (n : Nat) (l : List CO_CANtx_t) (cnt del : Nat)
    (h : (l.take n).countP (fun b => b.bufferFull && b.syncFlag) = 0) :
    clearSyncLoop n l cnt del = (l, cnt, del) := by
  induction n generalizing l with
  | zero => cases l <;> rfl
  | succ n ih =>
    cases l with
    | nil => rfl
    | cons b rest =>
      rw [List.take_succ_cons, List.countP_cons] at h
      have hfs : ¬ (b.bufferFull && b.syncFlag) = true := by
        intro hfs
        rw [if_pos hfs] at h
        omega
      rw [if_neg hfs] at h
      simp only [clearSyncLoop, hfs, Bool.false_eq_true, if_false, ih rest (by omega)]

theorem syncFullCount_le (m : CO_CANmodule_t) : syncFullCount m ≤ fullCount m := by
  unfold syncFullCount fullCount
  apply List.countP_mono_left
  intro b _ hb
  simp only [Bool.and_eq_true] at hb
  exact hb.1

theorem syncFullCount_pos_iff (m : CO_CANmodule_t) :
    0 < syncFullCount m ↔
      ∃ j b, j < m.txSize ∧ m.txArray[j]? = some b ∧ b.bufferFull = true ∧
        b.syncFlag = true := by
  unfold syncFullCount
  rw [List.countP_pos_iff]
  constructor
  · rintro ⟨b, hb, hfs⟩
    obtain ⟨j, hj⟩ := List.getElem?_of_mem hb
    rw [List.getElem?_take] at hj
    split_ifs at hj with hlt
    simp only [Bool.and_eq_true] at hfs
    exact ⟨j, b, hlt, hj, hfs.1, hfs.2⟩
  · rintro ⟨j, b, hlt, hj, hf, hs⟩
    refine ⟨b, ?_, by simp [hf, hs]⟩
    apply List.mem_iff_getElem?.2
    exact ⟨j, by rw [List.getElem?_take, if_pos hlt]; exact hj⟩

/-- Transmit array after `CO_CANclearPendingSyncPDOs`, slot by slot. -/
theorem getElem?_purge (E : StatusBits) (m : CO_CANmodule_t) (j : Nat) :
    (CO_CANclearPendingSyncPDOs E m).1.txArray[j]? =
      (m.txArray[j]?).map (fun b =>
        if m.CANtxCount ≠ 0 ∧ j < m.txSize ∧ b.bufferFull = true ∧ b.syncFlag = true then
          { b with bufferFull := false }
        else b) := by
  by_cases hc : m.CANtxCount = 0
  · simp only [CO_CANclearPendingSyncPDOs, hc, ne_eq, not_true_eq_false, if_false,
      false_and]
    cases m.txArray[j]? <;> rfl
  · simp only [CO_CANclearPendingSyncPDOs, ne_eq, hc, not_false_eq_true, if_true,
      getElem?_clearSyncLoop, true_and]

/-- Status word after `CO_CANclearPendingSyncPDOs`. -/
theorem purge_status (E : StatusBits) (m : CO_CANmodule_t) :
    (CO_CANclearPendingSyncPDOs E m).1.CANerrorStatus =
      if m.bufferInhibitFlag = true ∨ (m.CANtxCount ≠ 0 ∧ 0 < syncFullCount m) then
        (m.CANerrorStatus ||| CO_CAN_ERRTX_PDO_LATE E) % 65536
      else m.CANerrorStatus := by
  by_cases hc : m.CANtxCount = 0
  · simp only [CO_CANclearPendingSyncPDOs, hc, ne_eq, not_true_eq_false, if_false,
      false_and, or_false]
    cases m.bufferInhibitFlag <;> simp
  · simp only [CO_CANclearPendingSyncPDOs, ne_eq, hc, not_false_eq_true, if_true,
      clearSyncLoop_del, true_and]
    unfold syncFullCount
    by_cases hk : (m.txArray.take m.txSize).countP (fun b => b.bufferFull && b.syncFlag) = 0
    · rw [if_pos hk]
      have : ¬ 0 < (m.txArray.take m.txSize).countP (fun b => b.bufferFull && b.syncFlag) := by
        omega
      cases m.bufferInhibitFlag <;> simp [this]
    · rw [if_neg hk]
      have : 0 < (m.txArray.take m.txSize).countP (fun b => b.bufferFull && b.syncFlag) := by
        omega
      simp [this]

theorem not_full_of_fullCount_zero (m : CO_CANmodule_t) (h : fullCount m = 0) (j : Nat)
    (b : CO_CANtx_t) (hj : j < m.txSize) (hb : m.txArray[j]? = some b) :
    b.bufferFull = false := by
  unfold fullCount at h
  rw [List.countP_eq_zero] at h
  have hmem : b ∈ m.txArray.take m.txSize := by
    apply List.mem_iff_getElem?.2
    exact ⟨j, by rw [List.getElem?_take, if_pos hj]; exact hb⟩
  simpa using h b hmem

/-- C13: in a module whose `CANtxCount` (a 16-bit value) equals the number of
full transmit slots, `CO_CANclearPendingSyncPDOs` clears `bufferFull` on
exactly the slots below `txSize` that were both full and sync and leaves every
other slot, and identifier, DLC, data and sync flag of every slot, unchanged;
`CANtxCount` goes down by exactly the number of slots cleared; and the
tx-pdo-late bit is set if at least one slot was cleared. -/
theorem C13_purge_clears_sync_slots (E : StatusBits) (hE : E.independent)
    (m : CO_CANmodule_t) (hinv : m.CANtxCount = fullCount m) (hcnt : m.CANtxCount < 65536) :
    (∀ j, (CO_CANclearPendingSyncPDOs E m).1.txArray[j]? =
      (m.txArray[j]?).map (fun b =>
        if j < m.txSize ∧ b.bufferFull = true ∧ b.syncFlag = true then
          { b with bufferFull := false }
        else b)) ∧
    syncFullCount m ≤ m.CANtxCount ∧
    (CO_CANclearPendingSyncPDOs E m).1.CANtxCount = m.CANtxCount - syncFullCount m ∧
    (0 < syncFullCount m →
      (CO_CANclearPendingSyncPDOs E m).1.CANerrorStatus.testBit E.txPdoLate = true) ∧
    (CO_CANclearPendingSyncPDOs E m).1.txSize = m.txSize := by
  have hk : E.txPdoLate < 16 := hE.2 _ (by simp [StatusBits.positions])
  have hle : syncFullCount m ≤ m.CANtxCount := by
    rw [hinv]; exact syncFullCount_le m
  refine ⟨?_, hle, ?_, ?_, rfl⟩
  · intro j
    rw [getElem?_purge]
    by_cases hc : m.CANtxCount = 0
    · cases hb : m.txArray[j]? with
      | none => rfl
      | some b =>
        simp only [Option.map_some', hc, ne_eq, not_true_eq_false, false_and, if_false]
        by_cases hj : j < m.txSize
        · have := not_full_of_fullCount_zero m (by rw [← hinv]; exact hc) j b hj hb
          simp [this]
        · simp [hj]
    · simp [hc]
  · by_cases hc : m.CANtxCount = 0
    · simp only [CO_CANclearPendingSyncPDOs, hc, ne_eq, not_true_eq_false, if_false]
      omega
    · simp only [CO_CANclearPendingSyncPDOs, ne_eq, hc, not_false_eq_true, if_true]
      exact clearSyncLoop_cnt m.txSize m.txArray m.CANtxCount _ hle hcnt
  · intro hpos
    rw [purge_status]
    have hc : m.CANtxCount ≠ 0 := by omega
    rw [if_pos (Or.inr ⟨hc, hpos⟩)]
    exact testBit_or_two_pow_mod _ _ hk

/-- Witness of C13: `purgeModule` has two full sync slots and one full non-sync
slot; the two sync slots are cleared, the count goes from 3 to 1, the non-sync
slot stays full and tx-pdo-late is set. -/
theorem C13_purge_clears_sync_slots_witness :
    (CO_CANclearPendingSyncPDOs canopenNodeBits purgeModule).1.CANtxCount =
      purgeModule.CANtxCount - syncFullCount purgeModule ∧
    syncFullCount purgeModule = 2 ∧
    (CO_CANclearPendingSyncPDOs canopenNodeBits purgeModule).1.CANtxCount = 1 ∧
    (CO_CANclearPendingSyncPDOs canopenNodeBits purgeModule).1.txArray.map
      (fun b => b.bufferFull) = [false, true, false] ∧
    (CO_CANclearPendingSyncPDOs canopenNodeBits purgeModule).1.CANerrorStatus.testBit
      canopenNodeBits.txPdoLate = true :=
  ⟨(C13_purge_clears_sync_slots canopenNodeBits (by decide) purgeModule (by decide)
      (by decide)).2.2.1, by decide, by decide, by decide, by decide⟩

/-- C14: `CO_CANclearPendingSyncPDOs` sets the tx-pdo-late bit iff
`bufferInhibitFlag` was set on entry or at least one full slot was cleared, and
otherwise leaves `CANerrorStatus` unchanged; `bufferInhibitFlag` is false after
every call; `twai_clear_transmit_queue` is called iff `bufferInhibitFlag` was
set; and when `bufferInhibitFlag` is clear and no transmit slot below `txSize`
is both full and sync, the call returns the module unchanged and does not clear
the transmit queue. -/
theorem C14_purge_status_and_no_op (E : StatusBits) (hE : E.independent)
    (m : CO_CANmodule_t) :
    (CO_CANclearPendingSyncPDOs E m).1.bufferInhibitFlag = false ∧
    (CO_CANclearPendingSyncPDOs E m).2 = m.bufferInhibitFlag ∧
    ((m.bufferInhibitFlag = true ∨
        ∃ (j : Nat) (b : CO_CANtx_t), m.txArray[j]? = some b ∧ b.bufferFull = true ∧
          ((CO_CANclearPendingSyncPDOs E m).1.txArray[j]?).map
            (fun c : CO_CANtx_t => c.bufferFull) = some false) →
      (CO_CANclearPendingSyncPDOs E m).1.CANerrorStatus =
          (m.CANerrorStatus ||| CO_CAN_ERRTX_PDO_LATE E) % 65536 ∧
        (CO_CANclearPendingSyncPDOs E m).1.CANerrorStatus.testBit E.txPdoLate = true) ∧
    (¬ (m.bufferInhibitFlag = true ∨
        ∃ (j : Nat) (b : CO_CANtx_t), m.txArray[j]? = some b ∧ b.bufferFull = true ∧
          ((CO_CANclearPendingSyncPDOs E m).1.txArray[j]?).map
            (fun c : CO_CANtx_t => c.bufferFull) = some false) →
      (CO_CANclearPendingSyncPDOs E m).1.CANerrorStatus = m.CANerrorStatus) ∧
    (m.bufferInhibitFlag = false →
      (∀ j b, j < m.txSize → m.txArray[j]? = some b →
        ¬ (b.bufferFull = true ∧ b.syncFlag = true)) →
      CO_CANclearPendingSyncPDOs E m = (m, false)) := by
  have hk : E.txPdoLate < 16 := hE.2 _ (by simp [StatusBits.positions])
  have hiff : (∃ (j : Nat) (b : CO_CANtx_t), m.txArray[j]? = some b ∧ b.bufferFull = true ∧
        ((CO_CANclearPendingSyncPDOs E m).1.txArray[j]?).map
          (fun c : CO_CANtx_t => c.bufferFull) = some false) ↔ (m.CANtxCount ≠ 0 ∧ 0 < syncFullCount m) := by
    rw [syncFullCount_pos_iff]
    constructor
    · rintro ⟨j, b, hb, hf, hcl⟩
      rw [getElem?_purge, hb] at hcl
      simp only [Option.map_some', Option.some.injEq] at hcl
      split_ifs at hcl with hcond
      · exact ⟨hcond.1, j, b, hcond.2.1, hb, hcond.2.2.1, hcond.2.2.2⟩
      · rw [hf] at hcl; exact absurd hcl (by decide)
    · rintro ⟨hc, j, b, hj, hb, hf, hs⟩
      refine ⟨j, b, hb, hf, ?_⟩
      rw [getElem?_purge, hb]
      simp [hc, hj, hf, hs]
  refine ⟨rfl, rfl, ?_, ?_, ?_⟩
  · intro h
    rw [hiff] at h
    rw [purge_status, if_pos h]
    exact ⟨rfl, testBit_or_two_pow_mod _ _ hk⟩
  · intro h
    rw [hiff] at h
    rw [purge_status, if_neg h]
  · intro hinh hnone
    have hzero : ¬ 0 < syncFullCount m := by
      rw [syncFullCount_pos_iff]
      rintro ⟨j, b, hj, hb, hf, hs⟩
      exact hnone j b hj hb ⟨hf, hs⟩
    have hloop : ∀ del, clearSyncLoop m.txSize m.txArray m.CANtxCount del =
        (m.txArray, m.CANtxCount, del) :=
      fun del => clearSyncLoop_of_none _ _ _ _ (by unfold syncFullCount at hzero; omega)
    have hm : ({ m with bufferInhibitFlag := false } : CO_CANmodule_t) = m := by
      cases m
      simp only [] at hinh
      subst hinh
      rfl
    by_cases hc : m.CANtxCount = 0
    · simp only [CO_CANclearPendingSyncPDOs, hc, ne_eq, not_true_eq_false, if_false, hinh,
        Bool.false_eq_true]
      rw [← hc]
      exact congrArg (fun x => (x, false)) hm
    · simp only [CO_CANclearPendingSyncPDOs, ne_eq, hc, not_false_eq_true, if_true, hloop,
        hinh, Bool.false_eq_true, if_false, not_true_eq_false]
      exact congrArg (fun x => (x, false)) hm

/-- Witness of C14: on `purgeModule` slot 0 is cleared and tx-pdo-late is set;
on the initialised scenario module (flag clear, no full slot) the call changes
nothing and does not clear the transmit queue. -/
theorem C14_purge_status_and_no_op_witness :
    ((CO_CANclearPendingSyncPDOs canopenNodeBits purgeModule).1.CANerrorStatus =
        (purgeModule.CANerrorStatus ||| CO_CAN_ERRTX_PDO_LATE canopenNodeBits) % 65536 ∧
      (CO_CANclearPendingSyncPDOs canopenNodeBits purgeModule).1.CANerrorStatus.testBit
        canopenNodeBits.txPdoLate = true) ∧
    CO_CANclearPendingSyncPDOs canopenNodeBits scenarioInit = (scenarioInit, false) := by
  refine ⟨(C14_purge_status_and_no_op canopenNodeBits (by decide) purgeModule).2.2.1
      (Or.inr ⟨0, { rawTx with ident := 0x181, bufferFull := true, syncFlag := true },
        rfl, rfl, rfl⟩),
    (C14_purge_status_and_no_op canopenNodeBits (by decide) scenarioInit).2.2.2.2 rfl ?_⟩
  intro j b hj hb
  have hj2 : j < 2 := hj
  interval_cases j
  · simp [scenarioInit, rawTx] at hb
    subst hb
    decide
  · simp [scenarioInit, rawTx] at hb
    subst hb
    decide

/-! ## C15, C16, C17: registration of receive filters and transmit slots -/

theorem updateAt_const_twice {α : Type} (a b : α) (i : Nat) (l : List α) :
    updateAt (fun _ => b) i (updateAt (fun _ => a) i l) = updateAt (fun _ => b) i l := by
  induction l generalizing i with
  | nil => cases i <;> rfl
  | cons x xs ih =>
    cases i with
    | zero => rfl
    | succ i => simp [updateAt, ih]

/-- C15: `CO_CANrxBufferInit` returns `CO_ERROR_ILLEGAL_ARGUMENT` iff the
module, the consumer object or the callback is absent or `index >= rxSize`, and
whenever it returns `CO_ERROR_ILLEGAL_ARGUMENT` the module, its receive array
included, is exactly as before the call. -/
theorem C15_rxBufferInit_illegal_argument (CANmodule : Option CO_CANmodule_t)
    (index ident mask : Nat) (rtr : Bool) (object CANrx_callback : Option Ptr) :
    ((CO_CANrxBufferInit CANmodule index ident mask rtr object CANrx_callback).1 =
        CO_ReturnError_t.CO_ERROR_ILLEGAL_ARGUMENT ↔
      (CANmodule = none ∨ object = none ∨ CANrx_callback = none ∨
        ∃ m, CANmodule = some m ∧ m.rxSize ≤ index)) ∧
    ((CO_CANrxBufferInit CANmodule index ident mask rtr object CANrx_callback).1 =
        CO_ReturnError_t.CO_ERROR_ILLEGAL_ARGUMENT →
      (CO_CANrxBufferInit CANmodule index ident mask rtr object CANrx_callback).2 =
        CANmodule) := by
  cases CANmodule with
  | none => simp [CO_CANrxBufferInit]
  | some m =>
    cases object with
    | none => simp [CO_CANrxBufferInit]
    | some obj =>
      cases CANrx_callback with
      | none => simp [CO_CANrxBufferInit]
      | some cb =>
        by_cases h : index < m.rxSize
        · simp [CO_CANrxBufferInit, h]
        · simp [CO_CANrxBufferInit, h]
          omega

/-- Witness of C15: index 4 on the scenario module, whose `rxSize` is 4. -/
theorem C15_rxBufferInit_illegal_argument_witness :
    (CO_CANrxBufferInit (some scenarioInit) 4 0x180 0x7FF false (some 5) (some 6)).2 =
      some scenarioInit :=
  (C15_rxBufferInit_illegal_argument (some scenarioInit) 4 0x180 0x7FF false (some 5)
    (some 6)).2 (by decide)

/-- C16: a valid call of `CO_CANrxBufferInit` (module, consumer and callback
present, `index < rxSize`, the slot exists) returns `CO_ERROR_NO`; afterwards
slot `index` holds `ident = (ident AND 0x07FF) OR (0x0800 if rtr else 0)`,
`mask = (mask AND 0x07FF) OR 0x0800`, the given consumer and callback; every
other receive slot and every other field of the module is unchanged; and the
result does not depend on an earlier registration at the same index. -/
theorem C16_rxBufferInit_stores_filter (m : CO_CANmodule_t) (index ident mask : Nat)
    (rtr : Bool) (consumer cb : Ptr) (hindex : index < m.rxSize)
    (hlen : index < m.rxArray.length) :
    ∃ m1, CO_CANrxBufferInit (some m) index ident mask rtr (some consumer) (some cb) =
        (CO_ReturnError_t.CO_ERROR_NO, some m1) ∧
      m1.rxArray[index]? =
        some { ident := (ident &&& 0x07FF) ||| (if rtr then 0x0800 else 0)
               mask := (mask &&& 0x07FF) ||| 0x0800
               object := some consumer
               CANrx_callback := some cb } ∧
      (∀ j, j ≠ index → m1.rxArray[j]? = m.rxArray[j]?) ∧
      m1.rxArray.length = m.rxArray.length ∧
      { m1 with rxArray := m.rxArray } = m ∧
      (∀ (ident0 mask0 : Nat) (rtr0 : Bool) (consumer0 cb0 : Ptr),
        CO_CANrxBufferInit
            (CO_CANrxBufferInit (some m) index ident0 mask0 rtr0 (some consumer0)
              (some cb0)).2
            index ident mask rtr (some consumer) (some cb) =
          CO_CANrxBufferInit (some m) index ident mask rtr (some consumer) (some cb)) := by
  simp only [CO_CANrxBufferInit, hindex, if_true]
  refine ⟨_, rfl, ?_, ?_, ?_, rfl, ?_⟩
  · simp only [getElem?_updateAt, if_true, List.getElem?_eq_getElem hlen, Option.map_some']
    cases rtr <;> simp
  · intro j hj
    simp [getElem?_updateAt, hj]
  · simp [length_updateAt]
  · intro ident0 mask0 rtr0 consumer0 cb0
    simp only [updateAt_const_twice]

/-- Witness of C16: identifier 0x1234 with mask 0xFFFF and `rtr = true` at
index 2 of the scenario module is stored as `ident = 0xA34`, `mask = 0xFFF`. -/
theorem C16_rxBufferInit_stores_filter_witness :
    ∃ m1, CO_CANrxBufferInit (some scenarioInit) 2 0x1234 0xFFFF true (some 5) (some 6) =
        (CO_ReturnError_t.CO_ERROR_NO, some m1) ∧
      m1.rxArray[2]? =
        some { ident := (0x1234 &&& 0x07FF) ||| (if true then 0x0800 else 0)
               mask := (0xFFFF &&& 0x07FF) ||| 0x0800
               object := some 5
               CANrx_callback := some 6 } ∧
      (∀ j, j ≠ 2 → m1.rxArray[j]? = scenarioInit.rxArray[j]?) ∧
      m1.rxArray.length = scenarioInit.rxArray.length ∧
      { m1 with rxArray := scenarioInit.rxArray } = scenarioInit ∧
      (∀ (ident0 mask0 : Nat) (rtr0 : Bool) (consumer0 cb0 : Ptr),
        CO_CANrxBufferInit
            (CO_CANrxBufferInit (some scenarioInit) 2 ident0 mask0 rtr0 (some consumer0)
              (some cb0)).2
            2 0x1234 0xFFFF true (some 5) (some 6) =
          CO_CANrxBufferInit (some scenarioInit) 2 0x1234 0xFFFF true (some 5) (some 6)) :=
  C16_rxBufferInit_stores_filter scenarioInit 2 0x1234 0xFFFF true 5 6 (by decide) (by decide)

/-- C17: `CO_CANtxBufferInit` returns no slot iff the module is absent or
`index >= txSize`, and then changes nothing. Otherwise it returns the slot at
`index`, which afterwards has `bufferFull = false`, `ident = ident AND 0x07FF`,
the given sync flag and `DLC = noOfBytes AND 0xF` (the byte count modulo 16);
the data bytes of the slot, every other transmit slot and every other field of
the module are unchanged. -/
theorem C17_txBufferInit_sets_up_slot (CANmodule : Option CO_CANmodule_t)
    (index ident : Nat) (rtr : Bool) (noOfBytes : Nat) (syncFlag : Bool) :
    ((CO_CANtxBufferInit CANmodule index ident rtr noOfBytes syncFlag).1 = none ↔
      (CANmodule = none ∨ ∃ m, CANmodule = some m ∧ m.txSize ≤ index)) ∧
    ((CO_CANtxBufferInit CANmodule index ident rtr noOfBytes syncFlag).1 = none →
      (CO_CANtxBufferInit CANmodule index ident rtr noOfBytes syncFlag).2 = CANmodule) ∧
    (∀ m b, CANmodule = some m → index < m.txSize → m.txArray[index]? = some b →
      ∃ m1, CO_CANtxBufferInit CANmodule index ident rtr noOfBytes syncFlag =
          (some index, some m1) ∧
        m1.txArray[index]? =
          some { ident := ident &&& 0x07FF, DLC := noOfBytes &&& 0xF, data := b.data,
                 bufferFull := false, syncFlag := syncFlag } ∧
        (∀ j, j ≠ index → m1.txArray[j]? = m.txArray[j]?) ∧
        { m1 with txArray := m.txArray } = m) ∧
    noOfBytes &&& 0xF = noOfBytes % 16 := by
  refine ⟨?_, ?_, ?_, Nat.and_pow_two_sub_one_eq_mod noOfBytes 4⟩
  · cases CANmodule with
    | none => simp [CO_CANtxBufferInit]
    | some m =>
      by_cases h : index < m.txSize
      · simp [CO_CANtxBufferInit, h]
      · simp [CO_CANtxBufferInit, h]
        omega
  · cases CANmodule with
    | none => simp [CO_CANtxBufferInit]
    | some m =>
      by_cases h : index < m.txSize
      · simp [CO_CANtxBufferInit, h]
      · simp [CO_CANtxBufferInit, h]
  · intro m b hm hindex hb
    subst hm
    simp only [CO_CANtxBufferInit, hindex, if_true]
    refine ⟨_, rfl, ?_, ?_, rfl⟩
    · simp [getElem?_updateAt, hb]
    · intro j hj
      simp [getElem?_updateAt, hj]

/-- Witness of C17: slot 0 of the scenario module set up with a byte count of
16, which is stored as DLC 0. -/
theorem C17_txBufferInit_sets_up_slot_witness :
    ∃ m1, CO_CANtxBufferInit (some scenarioInit) 0 0x1234 false 16 true =
        (some 0, some m1) ∧
      m1.txArray[0]? =
        some { ident := 0x1234 &&& 0x07FF, DLC := 16 &&& 0xF, data := rawTx.data,
               bufferFull := false, syncFlag := true } ∧
      (∀ j, j ≠ 0 → m1.txArray[j]? = scenarioInit.txArray[j]?) ∧
      { m1 with txArray := scenarioInit.txArray } = scenarioInit :=
  (C17_txBufferInit_sets_up_slot (some scenarioInit) 0 0x1234 false 16 true).2.2.1
    scenarioInit rawTx rfl (by decide) rfl

/-! ## C18: CO_CANmodule_init -/

/-- Counterexample to C18 as stated: with module and both arrays present, but
the transport driver failing to install (code -1), `ESP_ERROR_CHECK` aborts and
`CO_CANmodule_init` returns nothing, so it does not return success. -/
theorem C18_driver_install_counterexample :
    CO_CANmodule_init (some rawModule) none (some [rawRx, rawRx, rawRx, rawRx]) 4
        (some [rawTx, rawTx]) 2 0 (-1) = none ∧
    CO_CANmodule_init (some rawModule) none (some [rawRx, rawRx, rawRx, rawRx]) 4
        (some [rawTx, rawTx]) 2 0 (-1) ≠
      some (CO_ReturnError_t.CO_ERROR_NO, some scenarioInit,
        some scenarioInit.rxArray, some scenarioInit.txArray) :=
  ⟨rfl, fun h => nomatch h⟩

/-- C18 (amended): `CO_CANmodule_init` returns `CO_ERROR_ILLEGAL_ARGUMENT`,
with module and arrays as before the call, if the module, the receive array or
the transmit array is absent. Otherwise, when the transport driver installs
(`twai_driver_install` returns `ESP_OK`), it returns `CO_ERROR_NO` and
afterwards every receive slot `i < rxSize` has `ident = 0`, `mask = 0xFFFF`, no
consumer and no callback, every transmit slot `i < txSize` has
`bufferFull = false` with its other fields kept, and the module has
`CANerrorStatus = 0`, `CANtxCount = 0`, `bufferInhibitFlag = false`,
`firstCANtxMessage = true`, `useCANrxFilters = false`, `errOld = 0` and the
given sizes. When the driver does not install, the call does not return. -/
theorem C18_module_init (CANmodule : Option CO_CANmodule_t) (CANptr : Option Ptr)
    (rxArray : Option (List CO_CANrx_t)) (rxSize : Nat)
    (txArray : Option (List CO_CANtx_t)) (txSize CANbitRate : Nat)
    (twai_driver_install : esp_err_t) :
    ((CANmodule = none ∨ rxArray = none ∨ txArray = none) →
      CO_CANmodule_init CANmodule CANptr rxArray rxSize txArray txSize CANbitRate
          twai_driver_install =
        some (CO_ReturnError_t.CO_ERROR_ILLEGAL_ARGUMENT, CANmodule, rxArray, txArray)) ∧
    (∀ m rx tx, CANmodule = some m → rxArray = some rx → txArray = some tx →
      twai_driver_install = ESP_OK →
      ∃ m1, CO_CANmodule_init CANmodule CANptr rxArray rxSize txArray txSize CANbitRate
            twai_driver_install =
          some (CO_ReturnError_t.CO_ERROR_NO, some m1, some m1.rxArray, some m1.txArray) ∧
        (∀ i, i < rxSize → i < rx.length →
          m1.rxArray[i]? =
            some { ident := 0, mask := 0xFFFF, object := none, CANrx_callback := none }) ∧
        (∀ i b, i < txSize → tx[i]? = some b →
          m1.txArray[i]? = some { b with bufferFull := false }) ∧
        m1.rxArray.length = rx.length ∧ m1.txArray.length = tx.length ∧
        m1.rxSize = rxSize ∧ m1.txSize = txSize ∧
        m1.CANerrorStatus = 0 ∧ m1.CANtxCount = 0 ∧ m1.bufferInhibitFlag = false ∧
        m1.firstCANtxMessage = true ∧ m1.useCANrxFilters = false ∧ m1.errOld = 0) ∧
    (∀ m rx tx, CANmodule = some m → rxArray = some rx → txArray = some tx →
      twai_driver_install ≠ ESP_OK →
      CO_CANmodule_init CANmodule CANptr rxArray rxSize txArray txSize CANbitRate
          twai_driver_install = none) := by
  refine ⟨?_, ?_, ?_⟩
  · intro h
    cases CANmodule <;> cases rxArray <;> cases txArray <;> simp_all [CO_CANmodule_init]
  · intro m rx tx hm hrx htx hok
    subst hm hrx htx hok
    simp only [CO_CANmodule_init, if_true]
    refine ⟨_, rfl, ?_, ?_, ?_, ?_, rfl, rfl, rfl, rfl, rfl, rfl, rfl, rfl⟩
    · intro i hi hlen
      simp only [initRxArray]
      rw [getElem?_foldl_updateAt, if_pos hi, List.getElem?_eq_getElem hlen]
      rfl
    · intro i b hi hb
      simp only [initTxArray]
      rw [getElem?_foldl_updateAt, if_pos hi, hb]
      rfl
    · simp only [initRxArray]
      exact length_foldl_updateAt _ _ _
    · simp only [initTxArray]
      exact length_foldl_updateAt _ _ _
  · intro m rx tx hm hrx htx hfail
    subst hm hrx htx
    simp [CO_CANmodule_init, hfail]

/-- Witness of C18 (amended): the scenario `rxSize = 4, txSize = 2` with the
driver installing, and the same call with an absent receive array. -/
theorem C18_module_init_witness :
    (∃ m1, CO_CANmodule_init (some rawModule) none (some [rawRx, rawRx, rawRx, rawRx]) 4
          (some [rawTx, rawTx]) 2 0 ESP_OK =
        some (CO_ReturnError_t.CO_ERROR_NO, some m1, some m1.rxArray, some m1.txArray) ∧
      (∀ i, i < 4 → i < [rawRx, rawRx, rawRx, rawRx].length →
        m1.rxArray[i]? =
          some { ident := 0, mask := 0xFFFF, object := none, CANrx_callback := none }) ∧
      (∀ i b, i < 2 → [rawTx, rawTx][i]? = some b →
        m1.txArray[i]? = some { b with bufferFull := false }) ∧
      m1.rxArray.length = [rawRx, rawRx, rawRx, rawRx].length ∧
      m1.txArray.length = [rawTx, rawTx].length ∧
      m1.rxSize = 4 ∧ m1.txSize = 2 ∧
      m1.CANerrorStatus = 0 ∧ m1.CANtxCount = 0 ∧ m1.bufferInhibitFlag = false ∧
      m1.firstCANtxMessage = true ∧ m1.useCANrxFilters = false ∧ m1.errOld = 0) ∧
    CO_CANmodule_init (some rawModule) none none 4 (some [rawTx, rawTx]) 2 0 ESP_OK =
      some (CO_ReturnError_t.CO_ERROR_ILLEGAL_ARGUMENT, some rawModule, none,
        some [rawTx, rawTx]) :=
  ⟨(C18_module_init (some rawModule) none (some [rawRx, rawRx, rawRx, rawRx]) 4
      (some [rawTx, rawTx]) 2 0 ESP_OK).2.1 rawModule _ _ rfl rfl rfl rfl,
    (C18_module_init (some rawModule) none none 4 (some [rawTx, rawTx]) 2 0 ESP_OK).1
      (Or.inr (Or.inl rfl))⟩

/-! ## C19: CO_CANsend without a slot -/

/-- C19 (evaluation at the failing input): called with a `NULL` slot,
`CO_CANsend` dereferences it unchecked; it yields no return code, no module
state and no frame, for every module and transport outcome. -/
theorem C19_send_null_slot (E : StatusBits) (m : CO_CANmodule_t) (ret : esp_err_t) :
    CO_CANsend E m none ret = none :=
  rfl

/-! ## C20: the first-message flag -/

theorem testBit_or_two_pow_mod_false (s k i : Nat) (hik : i ≠ k)
    (hs : s.testBit i = false) : ((s ||| 2 ^ k) % 65536).testBit i = false := by
  rw [testBit_mod_65536, Nat.testBit_or, Nat.testBit_two_pow_of_ne (Ne.symm hik), hs]
  simp

/-- No path of `CO_CANmodule_process` sets the tx-overflow bit. -/
theorem processStatus_txOverflow (E : StatusBits) (hE : E.independent)
    (rxErrors txErrors overflow s : Nat) (hs : s.testBit E.txOverflow = false) :
    (processStatus E rxErrors txErrors overflow s).testBit E.txOverflow = false := by
  have hnd := hE.1
  simp only [StatusBits.positions, List.nodup_cons, List.mem_cons, List.mem_singleton,
    not_or, List.not_mem_nil, not_false_eq_true, List.nodup_nil, and_true] at hnd
  obtain ⟨⟨-, -, h03, -, -, -, -⟩, ⟨-, h13, -, -, -, -⟩, ⟨h23, -, -, -, -⟩,
    ⟨-, h35, h36, h37⟩, -⟩ := hnd
  by_cases htx : txErrors < 256
  · rw [testBit_processStatus E hE _ _ _ _ _ htx, hs]
    simp [h37, Ne.symm h23, h35, h36, Ne.symm h03, Ne.symm h13]
  · have h256 : txErrors ≥ 256 := by omega
    unfold processStatus
    simp only [h256, if_true, CO_CAN_ERRTX_BUS_OFF, CO_CAN_ERRRX_OVERFLOW]
    split_ifs
    · exact testBit_or_two_pow_mod_false _ _ _ h37
        (testBit_or_two_pow_mod_false _ _ _ (Ne.symm h23) hs)
    · exact testBit_or_two_pow_mod_false _ _ _ (Ne.symm h23) hs

/-- One operation keeps `firstCANtxMessage` set and the tx-overflow bit clear. -/
theorem step_keeps_first (E : StatusBits) (hE : E.independent) (m m1 : CO_CANmodule_t)
    (op : Op) (hfirst : m.firstCANtxMessage = true)
    (hbit : m.CANerrorStatus.testBit E.txOverflow = false) (hstep : step E m op = some m1) :
    m1.firstCANtxMessage = true ∧ m1.CANerrorStatus.testBit E.txOverflow = false := by
  cases op with
  | rxBufferInit index ident mask rtr object cb =>
    simp only [step, CO_CANrxBufferInit] at hstep
    cases object <;> cases cb <;> simp only [Option.some.injEq] at hstep
    · subst hstep; exact ⟨hfirst, hbit⟩
    · subst hstep; exact ⟨hfirst, hbit⟩
    · subst hstep; exact ⟨hfirst, hbit⟩
    · split_ifs at hstep <;>
        (have h := Option.some.inj hstep
         subst h
         exact ⟨hfirst, hbit⟩)
  | txBufferInit index ident rtr noOfBytes syncFlag =>
    simp only [step, CO_CANtxBufferInit] at hstep
    split_ifs at hstep <;>
      (have h := Option.some.inj hstep
       subst h
       exact ⟨hfirst, hbit⟩)
  | send buffer ret =>
    cases buffer with
    | none => simp [step, CO_CANsend] at hstep
    | some p =>
      simp only [step, CO_CANsend] at hstep
      cases hb : m.txArray[p]? with
      | none => simp [hb] at hstep
      | some b =>
        simp only [hb, hfirst, Bool.not_true, Bool.and_false, Bool.false_eq_true,
          if_false] at hstep
        by_cases hc : ret = ESP_OK ∧ m.CANtxCount = 0
        · rw [if_pos hc] at hstep
          simp only [Option.map_some', Option.some.injEq] at hstep
          subst hstep
          exact ⟨rfl, hbit⟩
        · rw [if_neg hc] at hstep
          simp only [Option.map_some', Option.some.injEq] at hstep
          subst hstep
          exact ⟨rfl, hbit⟩
  | clearPendingSyncPDOs =>
    simp only [step, Option.some.injEq] at hstep
    subst hstep
    refine ⟨hfirst, ?_⟩
    have hnd := hE.1
    simp only [StatusBits.positions, List.nodup_cons, List.mem_cons, List.mem_singleton,
      not_or, List.not_mem_nil, not_false_eq_true, List.nodup_nil, and_true] at hnd
    have h34 : E.txOverflow ≠ E.txPdoLate := hnd.2.2.2.1.1
    rw [purge_status]
    split_ifs
    · exact testBit_or_two_pow_mod_false _ _ _ h34 hbit
    · exact hbit
  | process rxErrors txErrors overflow =>
    simp only [step, CO_CANmodule_process, Option.some.injEq] at hstep
    split_ifs at hstep
    · subst hstep
      exact ⟨hfirst, processStatus_txOverflow E hE _ _ _ _ hbit⟩
    · subst hstep
      exact ⟨hfirst, hbit⟩
  | receive ret rcvMsg =>
    simp only [step, CANreceive_fst, Option.some.injEq] at hstep
    subst hstep
    exact ⟨hfirst, hbit⟩

theorem run_keeps_first (E : StatusBits) (hE : E.independent) (ops : List Op)
    (m m1 : CO_CANmodule_t) (hfirst : m.firstCANtxMessage = true)
    (hbit : m.CANerrorStatus.testBit E.txOverflow = false) (hrun : run E m ops = some m1) :
    m1.firstCANtxMessage = true ∧ m1.CANerrorStatus.testBit E.txOverflow = false := by
  induction ops generalizing m with
  | nil =>
    simp only [run, Option.some.injEq] at hrun
    subst hrun
    exact ⟨hfirst, hbit⟩
  | cons op ops ih =>
    simp only [run] at hrun
    cases hs : step E m op with
    | none => simp [hs] at hrun
    | some m2 =>
      simp only [hs] at hrun
      obtain ⟨h1, h2⟩ := step_keeps_first E hE m m2 op hfirst hbit hs
      exact ih m2 h1 h2 hrun

/-- C20: in every module state reached from a successful `CO_CANmodule_init`
by a finite sequence of `CO_CANrxBufferInit`, `CO_CANtxBufferInit`,
`CO_CANsend` (any transport outcome), `CO_CANclearPendingSyncPDOs`,
`CO_CANmodule_process` and `CANreceive` calls, `firstCANtxMessage` is still
true and the tx-overflow bit is clear; and a further `CO_CANsend` in that
state, whatever it returns (`CO_ERROR_TX_OVERFLOW` included), leaves the flag
true and the bit clear. -/
theorem C20_first_message_flag_stays (E : StatusBits) (hE : E.independent)
    (CANmodule : CO_CANmodule_t) (CANptr : Option Ptr) (rxArray : List CO_CANrx_t)
    (rxSize : Nat) (txArray : List CO_CANtx_t) (txSize CANbitRate : Nat)
    (m0 m : CO_CANmodule_t) (rx1 : Option (List CO_CANrx_t))
    (tx1 : Option (List CO_CANtx_t)) (ops : List Op)
    (hinit : CO_CANmodule_init (some CANmodule) CANptr (some rxArray) rxSize
        (some txArray) txSize CANbitRate ESP_OK =
      some (CO_ReturnError_t.CO_ERROR_NO, some m0, rx1, tx1))
    (hrun : run E m0 ops = some m) :
    m.firstCANtxMessage = true ∧
    m.CANerrorStatus.testBit E.txOverflow = false ∧
    (∀ buffer ret err m1 msg, CO_CANsend E m buffer ret = some (err, m1, msg) →
      m1.firstCANtxMessage = true ∧ m1.CANerrorStatus.testBit E.txOverflow = false) := by
  simp only [CO_CANmodule_init, ESP_OK, if_true, Option.some.injEq, Prod.mk.injEq,
    true_and] at hinit
  obtain ⟨hm0, -, -⟩ := hinit
  subst hm0
  obtain ⟨h1, h2⟩ := run_keeps_first E hE ops _ m rfl (by simp) hrun
  refine ⟨h1, h2, ?_⟩
  intro buffer ret err m1 msg hsend
  exact step_keeps_first E hE m m1 (Op.send buffer ret) h1 h2 (by simp [step, hsend])

/-- Witness of C20: the module reached by `resendOps`, in which a further
send on the full slot 0 returns `CO_ERROR_TX_OVERFLOW`. -/
theorem C20_first_message_flag_stays_witness :
    (resendFinal.firstCANtxMessage = true ∧
      resendFinal.CANerrorStatus.testBit canopenNodeBits.txOverflow = false ∧
      (∀ buffer ret err m1 msg,
        CO_CANsend canopenNodeBits resendFinal buffer ret = some (err, m1, msg) →
        m1.firstCANtxMessage = true ∧
          m1.CANerrorStatus.testBit canopenNodeBits.txOverflow = false)) ∧
    (CO_CANsend canopenNodeBits resendFinal (some 0) ESP_OK).map (fun r => r.1) =
      some CO_ReturnError_t.CO_ERROR_TX_OVERFLOW :=
  ⟨C20_first_message_flag_stays canopenNodeBits (by decide) rawModule none
      [rawRx, rawRx, rawRx, rawRx] 4 [rawTx, rawTx] 2 0 scenarioInit resendFinal
      (some scenarioInit.rxArray) (some scenarioInit.txArray) resendOps rfl rfl,
    rfl⟩

/-! ## C21: a full slot stays full -/

/-- A send keeps every full slot full, with its sync flag. -/
theorem send_keeps_full (E : StatusBits) (m m1 : CO_CANmodule_t) (buffer : Option Nat)
    (ret : esp_err_t) (err : CO_ReturnError_t) (msg : twai_message_t) (q : Nat)
    (b : CO_CANtx_t) (hb : m.txArray[q]? = some b) (hfull : b.bufferFull = true)
    (hsend : CO_CANsend E m buffer ret = some (err, m1, msg)) :
    ∃ b1, m1.txArray[q]? = some b1 ∧ b1.bufferFull = true ∧ b1.syncFlag = b.syncFlag := by
  cases buffer with
  | none => simp [CO_CANsend] at hsend
  | some p =>
    simp only [CO_CANsend] at hsend
    cases hp : m.txArray[p]? with
    | none => simp [hp] at hsend
    | some c =>
      simp only [hp] at hsend
      by_cases hc : ret = ESP_OK ∧ m.CANtxCount = 0
      · rw [if_pos hc] at hsend
        simp only [Option.some.injEq, Prod.mk.injEq] at hsend
        obtain ⟨-, hm1, -⟩ := hsend
        subst hm1
        exact ⟨b, hb, hfull, rfl⟩
      · rw [if_neg hc] at hsend
        simp only [Option.some.injEq, Prod.mk.injEq] at hsend
        obtain ⟨-, hm1, -⟩ := hsend
        subst hm1
        simp only [getElem?_updateAt, hb, Option.map_some']
        by_cases hqp : q = p
        · rw [if_pos hqp]
          exact ⟨_, rfl, rfl, rfl⟩
        · rw [if_neg hqp]
          exact ⟨b, rfl, hfull, rfl⟩

/-- Every operation other than `CO_CANtxBufferInit` keeps a full slot that is
not synchronous full and not synchronous. -/
theorem step_keeps_full (E : StatusBits) (m m1 : CO_CANmodule_t) (op : Op) (q : Nat)
    (b : CO_CANtx_t) (hb : m.txArray[q]? = some b) (hfull : b.bufferFull = true)
    (hsync : b.syncFlag = false) (hop : op.keepsSlotSetup = true)
    (hstep : step E m op = some m1) :
    ∃ b1, m1.txArray[q]? = some b1 ∧ b1.bufferFull = true ∧ b1.syncFlag = false := by
  cases op with
  | rxBufferInit index ident mask rtr object cb =>
    simp only [step, CO_CANrxBufferInit] at hstep
    cases object <;> cases cb <;> simp only [Option.some.injEq] at hstep
    · subst hstep; exact ⟨b, hb, hfull, hsync⟩
    · subst hstep; exact ⟨b, hb, hfull, hsync⟩
    · subst hstep; exact ⟨b, hb, hfull, hsync⟩
    · split_ifs at hstep <;>
        (have h := Option.some.inj hstep
         subst h
         exact ⟨b, hb, hfull, hsync⟩)
  | txBufferInit index ident rtr noOfBytes syncFlag =>
    simp [Op.keepsSlotSetup] at hop
  | send buffer ret =>
    simp only [step, Option.map_eq_some'] at hstep
    obtain ⟨⟨err, m2, msg⟩, hsend, hm⟩ := hstep
    simp only [] at hm
    subst hm
    obtain ⟨b1, h1, h2, h3⟩ := send_keeps_full E m m2 buffer ret err msg q b hb hfull hsend
    exact ⟨b1, h1, h2, by rw [h3, hsync]⟩
  | clearPendingSyncPDOs =>
    simp only [step, Option.some.injEq] at hstep
    subst hstep
    refine ⟨b, ?_, hfull, hsync⟩
    rw [getElem?_purge, hb]
    simp [hsync]
  | process rxErrors txErrors overflow =>
    simp only [step, CO_CANmodule_process, Option.some.injEq] at hstep
    split_ifs at hstep
    · subst hstep; exact ⟨b, hb, hfull, hsync⟩
    · subst hstep; exact ⟨b, hb, hfull, hsync⟩
  | receive ret rcvMsg =>
    simp only [step, CANreceive_fst, Option.some.injEq] at hstep
    subst hstep
    exact ⟨b, hb, hfull, hsync⟩

theorem run_keeps_full (E : StatusBits) (ops : List Op) (m m1 : CO_CANmodule_t) (q : Nat)
    (b : CO_CANtx_t) (hb : m.txArray[q]? = some b) (hfull : b.bufferFull = true)
    (hsync : b.syncFlag = false) (hops : ∀ op ∈ ops, op.keepsSlotSetup = true)
    (hrun : run E m ops = some m1) :
    ∃ b1, m1.txArray[q]? = some b1 ∧ b1.bufferFull = true ∧ b1.syncFlag = false := by
  induction ops generalizing m b with
  | nil =>
    simp only [run, Option.some.injEq] at hrun
    subst hrun
    exact ⟨b, hb, hfull, hsync⟩
  | cons op ops ih =>
    simp only [run] at hrun
    cases hs : step E m op with
    | none => simp [hs] at hrun
    | some m2 =>
      simp only [hs] at hrun
      obtain ⟨b2, h1, h2, h3⟩ :=
        step_keeps_full E m m2 op q b hb hfull hsync (hops op (by simp)) hs
      exact ih m2 b2 h1 h2 h3 (fun o ho => hops o (by simp [ho])) hrun

/-- C21: `CO_CANsend` never empties a slot: a slot that is full before the
call is full after it, for every module, target slot and transport outcome.
Hence a full slot that is not synchronous is still full after any sequence of
operations without `CO_CANtxBufferInit` (sends, purges, refreshes, and also
filter registrations and receptions), and every `CO_CANsend` on it returns
`CO_ERROR_TX_OVERFLOW`. -/
theorem C21_full_slot_stays_full (E : StatusBits) (m : CO_CANmodule_t) (q : Nat)
    (b : CO_CANtx_t) (hb : m.txArray[q]? = some b) (hfull : b.bufferFull = true) :
    (∀ buffer ret err m1 msg, CO_CANsend E m buffer ret = some (err, m1, msg) →
      ∃ b1, m1.txArray[q]? = some b1 ∧ b1.bufferFull = true) ∧
    (b.syncFlag = false →
      ∀ ops m1, (∀ op ∈ ops, op.keepsSlotSetup = true) → run E m ops = some m1 →
        (∃ b1, m1.txArray[q]? = some b1 ∧ b1.bufferFull = true ∧ b1.syncFlag = false) ∧
        ∀ ret, ∃ m2 msg, CO_CANsend E m1 (some q) ret =
          some (CO_ReturnError_t.CO_ERROR_TX_OVERFLOW, m2, msg)) := by
  refine ⟨?_, ?_⟩
  · intro buffer ret err m1 msg hsend
    obtain ⟨b1, h1, h2, -⟩ := send_keeps_full E m m1 buffer ret err msg q b hb hfull hsend
    exact ⟨b1, h1, h2⟩
  · intro hsync ops m1 hops hrun
    obtain ⟨b1, h1, h2, h3⟩ := run_keeps_full E ops m m1 q b hb hfull hsync hops hrun
    refine ⟨⟨b1, h1, h2, h3⟩, ?_⟩
    intro ret
    simp only [CO_CANsend, h1, h2, if_true]
    by_cases hc : ret = ESP_OK ∧ m1.CANtxCount = 0
    · rw [if_pos hc]; exact ⟨_, _, rfl⟩
    · rw [if_neg hc]; exact ⟨_, _, rfl⟩

/-- Witness of C21: slot 0 of `resendFinal` is full and not synchronous; after
`pressureOps` it is still full and a send on it returns
`CO_ERROR_TX_OVERFLOW`. -/
theorem C21_full_slot_stays_full_witness :
    (∃ b1, pressureFinal.txArray[0]? = some b1 ∧ b1.bufferFull = true ∧
      b1.syncFlag = false) ∧
    ∀ ret, ∃ m2 msg, CO_CANsend canopenNodeBits pressureFinal (some 0) ret =
      some (CO_ReturnError_t.CO_ERROR_TX_OVERFLOW, m2, msg) :=
  (C21_full_slot_stays_full canopenNodeBits resendFinal 0
      { ident := 0x200, DLC := 8, data := [0, 0, 0, 0, 0, 0, 0, 0], bufferFull := true,
        syncFlag := false } rfl rfl).2 rfl pressureOps pressureFinal (by decide) rfl

/-! ## C22: a delivered frame behind pending slots -/

/-- C22: with `CANtxCount != 0`, `CO_CANsend` marks the slot full, increments
`CANtxCount` by one modulo `2^16` and leaves `bufferInhibitFlag` unchanged
whatever the transport reports, so the call has the same result for a delivered
frame as for a failed handoff. In general the slot is marked pending exactly
when not (transport delivered and `CANtxCount = 0` on entry); in the remaining
case the transmit array and the count are unchanged. -/
theorem C22_send_behind_pending (E : StatusBits) (m : CO_CANmodule_t) (p : Nat)
    (b : CO_CANtx_t) (ret : esp_err_t) (hb : m.txArray[p]? = some b) :
    (m.CANtxCount ≠ 0 →
      (∃ err m1 msg, CO_CANsend E m (some p) ret = some (err, m1, msg) ∧
        m1.txArray[p]? = some { b with bufferFull := true } ∧
        m1.CANtxCount = (m.CANtxCount + 1) % 65536 ∧
        m1.bufferInhibitFlag = m.bufferInhibitFlag) ∧
      CO_CANsend E m (some p) ESP_OK = CO_CANsend E m (some p) ret) ∧
    (¬ (ret = ESP_OK ∧ m.CANtxCount = 0) →
      ∃ err m1 msg, CO_CANsend E m (some p) ret = some (err, m1, msg) ∧
        m1.txArray[p]? = some { b with bufferFull := true } ∧
        m1.CANtxCount = (m.CANtxCount + 1) % 65536 ∧
        m1.bufferInhibitFlag = m.bufferInhibitFlag) ∧
    ((ret = ESP_OK ∧ m.CANtxCount = 0) →
      ∃ err m1 msg, CO_CANsend E m (some p) ret = some (err, m1, msg) ∧
        m1.txArray = m.txArray ∧ m1.CANtxCount = m.CANtxCount ∧
        m1.bufferInhibitFlag = b.syncFlag) := by
  have hmark : ∀ r : esp_err_t, ¬ (r = ESP_OK ∧ m.CANtxCount = 0) →
      ∃ err m1 msg, CO_CANsend E m (some p) r = some (err, m1, msg) ∧
        m1.txArray[p]? = some { b with bufferFull := true } ∧
        m1.CANtxCount = (m.CANtxCount + 1) % 65536 ∧
        m1.bufferInhibitFlag = m.bufferInhibitFlag := by
    intro r hc
    simp only [CO_CANsend, hb]
    rw [if_neg hc]
    refine ⟨_, _, _, rfl, ?_, rfl, rfl⟩
    simp [getElem?_updateAt, hb]
  refine ⟨?_, hmark ret, ?_⟩
  · intro hcount
    refine ⟨hmark ret (fun h => hcount h.2), ?_⟩
    have h1 : ¬ (True ∧ m.CANtxCount = 0) := fun h => hcount h.2
    have h2 : ¬ (ret = ESP_OK ∧ m.CANtxCount = 0) := fun h => hcount h.2
    simp only [CO_CANsend, hb]
    rw [if_neg h1, if_neg h2]
  · intro hc
    simp only [CO_CANsend, hb]
    rw [if_pos hc]
    exact ⟨_, _, _, rfl, rfl, rfl, rfl⟩

/-- Witness of C22: slot 1 of `resendFinal` (empty, `CANtxCount = 2`): the
call with a failed handoff (code -1) marks the slot, and the call with the
frame reported delivered has the same result. -/
theorem C22_send_behind_pending_witness :
    (∃ err m1 msg, CO_CANsend canopenNodeBits resendFinal (some 1) (-1) =
        some (err, m1, msg) ∧
      m1.txArray[1]? = some { rawTx with bufferFull := true } ∧
      m1.CANtxCount = (resendFinal.CANtxCount + 1) % 65536 ∧
      m1.bufferInhibitFlag = resendFinal.bufferInhibitFlag) ∧
    CO_CANsend canopenNodeBits resendFinal (some 1) ESP_OK =
      CO_CANsend canopenNodeBits resendFinal (some 1) (-1) :=
  (C22_send_behind_pending canopenNodeBits resendFinal 1 rawTx (-1) rfl).1 (by decide)

/-! ## C23: CO_CANmodule_process in this program -/

/-- One operation of the program keeps `firstCANtxMessage` set, `errOld = 0`
and every status bit other than tx-pdo-late clear. -/
theorem step_keeps_quiet (E : StatusBits) (m m1 : CO_CANmodule_t) (op : Op)
    (hfirst : m.firstCANtxMessage = true) (hold : m.errOld = 0)
    (hbits : ∀ i, i ≠ E.txPdoLate → m.CANerrorStatus.testBit i = false)
    (hop : op.readsStatics = true) (hstep : step E m op = some m1) :
    m1.firstCANtxMessage = true ∧ m1.errOld = 0 ∧
      ∀ i, i ≠ E.txPdoLate → m1.CANerrorStatus.testBit i = false := by
  cases op with
  | rxBufferInit index ident mask rtr object cb =>
    simp only [step, CO_CANrxBufferInit] at hstep
    cases object <;> cases cb <;> simp only [Option.some.injEq] at hstep
    · subst hstep; exact ⟨hfirst, hold, hbits⟩
    · subst hstep; exact ⟨hfirst, hold, hbits⟩
    · subst hstep; exact ⟨hfirst, hold, hbits⟩
    · split_ifs at hstep <;>
        (have h := Option.some.inj hstep
         subst h
         exact ⟨hfirst, hold, hbits⟩)
  | txBufferInit index ident rtr noOfBytes syncFlag =>
    simp only [step, CO_CANtxBufferInit] at hstep
    split_ifs at hstep <;>
      (have h := Option.some.inj hstep
       subst h
       exact ⟨hfirst, hold, hbits⟩)
  | send buffer ret =>
    cases buffer with
    | none => simp [step, CO_CANsend] at hstep
    | some p =>
      simp only [step, CO_CANsend] at hstep
      cases hb : m.txArray[p]? with
      | none => simp [hb] at hstep
      | some b =>
        simp only [hb, hfirst, Bool.not_true, Bool.and_false, Bool.false_eq_true,
          if_false] at hstep
        by_cases hc : ret = ESP_OK ∧ m.CANtxCount = 0
        · rw [if_pos hc] at hstep
          simp only [Option.map_some', Option.some.injEq] at hstep
          subst hstep
          exact ⟨rfl, hold, hbits⟩
        · rw [if_neg hc] at hstep
          simp only [Option.map_some', Option.some.injEq] at hstep
          subst hstep
          exact ⟨rfl, hold, hbits⟩
  | clearPendingSyncPDOs =>
    simp only [step, Option.some.injEq] at hstep
    subst hstep
    refine ⟨hfirst, hold, ?_⟩
    intro i hi
    rw [purge_status]
    split_ifs
    · exact testBit_or_two_pow_mod_false _ _ _ hi (hbits i hi)
    · exact hbits i hi
  | process r t o =>
    simp only [Op.readsStatics, decide_eq_true_eq, rxErrors, txErrors, overflow] at hop
    obtain ⟨hr, ht, ho⟩ := hop
    subst hr ht ho
    have hsample : errSample 0 0 0 = 0 := by decide
    simp only [step, CO_CANmodule_process, hsample, hold, ne_eq, not_true_eq_false, if_false,
      Option.some.injEq] at hstep
    subst hstep
    exact ⟨hfirst, hold, hbits⟩
  | receive ret rcvMsg =>
    simp only [step, CANreceive_fst, Option.some.injEq] at hstep
    subst hstep
    exact ⟨hfirst, hold, hbits⟩

theorem run_keeps_quiet (E : StatusBits) (ops : List Op) (m m1 : CO_CANmodule_t)
    (hfirst : m.firstCANtxMessage = true) (hold : m.errOld = 0)
    (hbits : ∀ i, i ≠ E.txPdoLate → m.CANerrorStatus.testBit i = false)
    (hops : ∀ op ∈ ops, op.readsStatics = true) (hrun : run E m ops = some m1) :
    m1.firstCANtxMessage = true ∧ m1.errOld = 0 ∧
      ∀ i, i ≠ E.txPdoLate → m1.CANerrorStatus.testBit i = false := by
  induction ops generalizing m with
  | nil =>
    simp only [run, Option.some.injEq] at hrun
    subst hrun
    exact ⟨hfirst, hold, hbits⟩
  | cons op ops ih =>
    simp only [run] at hrun
    cases hs : step E m op with
    | none => simp [hs] at hrun
    | some m2 =>
      simp only [hs] at hrun
      obtain ⟨h1, h2, h3⟩ :=
        step_keeps_quiet E m m2 op hfirst hold hbits (hops op (by simp)) hs
      exact ih m2 h1 h2 h3 (fun o ho => hops o (by simp [ho])) hrun

/-- C23: the counters `rxErrors`, `txErrors` and `overflow` are 0 and
`errOld` is 0 after `CO_CANmodule_init`. Hence in every module state reached
from a successful `CO_CANmodule_init` by the public operations, with
`CO_CANmodule_process` reading those counters, `errOld` is 0,
`CO_CANmodule_process` returns the module unchanged, and no status bit other
than tx-pdo-late is set: no warning, passive, bus-off or overflow bit. -/
theorem C23_process_is_identity (E : StatusBits) (CANmodule : CO_CANmodule_t)
    (CANptr : Option Ptr) (rxArray : List CO_CANrx_t) (rxSize : Nat)
    (txArray : List CO_CANtx_t) (txSize CANbitRate : Nat) (m0 m : CO_CANmodule_t)
    (rx1 : Option (List CO_CANrx_t)) (tx1 : Option (List CO_CANtx_t)) (ops : List Op)
    (hinit : CO_CANmodule_init (some CANmodule) CANptr (some rxArray) rxSize
        (some txArray) txSize CANbitRate ESP_OK =
      some (CO_ReturnError_t.CO_ERROR_NO, some m0, rx1, tx1))
    (hops : ∀ op ∈ ops, op.readsStatics = true)
    (hrun : run E m0 ops = some m) :
    rxErrors = 0 ∧ txErrors = 0 ∧ overflow = 0 ∧ m0.errOld = 0 ∧
    m.errOld = 0 ∧
    CO_CANmodule_process E rxErrors txErrors overflow m = m ∧
    (∀ i, i ≠ E.txPdoLate → m.CANerrorStatus.testBit i = false) := by
  simp only [CO_CANmodule_init, ESP_OK, if_true, Option.some.injEq, Prod.mk.injEq,
    true_and] at hinit
  obtain ⟨hm0, -, -⟩ := hinit
  subst hm0
  obtain ⟨-, h2, h3⟩ := run_keeps_quiet E ops _ m rfl rfl (by simp) hops hrun
  have hsample : errSample 0 0 0 = 0 := by decide
  refine ⟨rfl, rfl, rfl, rfl, h2, ?_, h3⟩
  simp [CO_CANmodule_process, rxErrors, txErrors, overflow, hsample, h2]

/-- Witness of C23: `programOps` from the initialised scenario module, with
three refreshes among sends, a purge and a reception; only tx-pdo-late is set
at the end. -/
theorem C23_process_is_identity_witness :
    (rxErrors = 0 ∧ txErrors = 0 ∧ overflow = 0 ∧ scenarioInit.errOld = 0 ∧
      programFinal.errOld = 0 ∧
      CO_CANmodule_process canopenNodeBits rxErrors txErrors overflow programFinal =
        programFinal ∧
      (∀ i, i ≠ canopenNodeBits.txPdoLate → programFinal.CANerrorStatus.testBit i = false)) ∧
    programFinal.CANerrorStatus = 0x80 :=
  ⟨C23_process_is_identity canopenNodeBits rawModule none [rawRx, rawRx, rawRx, rawRx] 4
      [rawTx, rawTx] 2 0 scenarioInit programFinal (some scenarioInit.rxArray)
      (some scenarioInit.txArray) programOps rfl (by decide) rfl,
    rfl⟩

end CANopen
